import Mathlib

set_option maxHeartbeats 1000000

/-!
Shallow embedding of `src/YouTubeURLGetterUI.py`: the `ScraperThread`
pipeline (handle resolution, playlist pagination, batched video metadata,
retry decoration, progress and signal emission) and the export path of
`YouTubeScraperWindow.save_to_file`.

Remote HTTP interaction is modelled by explicit outcome-valued functions
(a `Gateway` record giving, for each request the code can issue, the raw
outcome of `request.execute()`); Python exceptions are modelled by the
`PyErr` type.  Qt signal emissions are modelled as an ordered list of
`Event` values, and the remote requests actually issued as an ordered
list of `ApiCall` values.
-/

/-- Python exception values that flow through the scraper.  `httpError`
models `googleapiclient.errors.HttpError` carrying the HTTP status
(`e.resp.status`), `valueError` models `ValueError(msg)`, and `exception`
models a generic `Exception(msg)`. -/
inductive PyErr where
  | httpError (status : Nat)
  | valueError (msg : String)
  | exception (msg : String)
deriving DecidableEq, Repr

/-- `str(e)` as used when the code interpolates an exception into a
message.  For `HttpError` the real text is longer; the model keeps just
the status, which is the only part the code inspects. -/
def PyErr.str : PyErr → String
  | .httpError s => "HttpError " ++ toString s
  | .valueError m => m
  | .exception m => m

/-- The tenacity predicate `retry_if_exception_type(HttpError)`. -/
def PyErr.isHttpError : PyErr → Bool
  | .httpError _ => true
  | _ => false

/-- The tenacity decorator
`@retry(stop=stop_after_attempt(n), wait=wait_exponential(...), retry=retry_if_exception_type(HttpError))`:
run the wrapped unit of work; while the raised error satisfies `retryOn`
and attempts remain, run it again (the waits of `wait_exponential` only
consume time and are not modelled).  When the attempt ceiling is reached
on a retryable failure, tenacity raises its own `RetryError`.  `work i`
is the outcome of the `i`-th execution; the second component of the
result counts how many executions happened. -/
def retryCall (retryOn : PyErr → Bool) (work : Nat → Except PyErr α) :
    Nat → Nat → Except PyErr α × Nat
  | 0, _ => (.error (.exception "RetryError"), 0)
  | 1, i =>
    match work i with
    | .ok a => (.ok a, 1)
    | .error e =>
      if retryOn e then (.error (.exception "RetryError"), 1) else (.error e, 1)
  | n + 2, i =>
    match work i with
    | .ok a => (.ok a, 1)
    | .error e =>
      if retryOn e then
        let r := retryCall retryOn work (n + 1) (i + 1)
        (r.1, r.2 + 1)
      else (.error e, 1)

/-- A `playlistItems().list` response: `pageInfo.totalResults` (0 when the
key is absent, matching `.get('pageInfo', {}).get('totalResults', 0)`),
the `contentDetails.videoId` of each item (`none` when the response lacks
an `items` key), and the `nextPageToken` when present. -/
structure PageResponse where
  totalResults : Nat
  items : Option (List String)
  nextPageToken : Option String
deriving DecidableEq, Repr

/-- One item of a `videos().list` response: its `id` and `snippet.title`. -/
structure VideoItem where
  id : String
  title : String
deriving DecidableEq, Repr

/-- The YouTube Data API as seen by the scraper: the raw outcome of
`request.execute()` for each request the code can issue.
`resolveHandle h` is the channel id found by `channels().list(forHandle=h)`
(`none` when the response has an empty or missing `items`);
`channelsApi cid` is the uploads playlist id
`items[0].contentDetails.relatedPlaylists.uploads` of
`channels().list(id=cid)` (`none` when the response lacks `items`);
`videosApi ids` is the item list of `videos().list(id=",".flatten(ids))`
(`none` when the response lacks an `items` key). -/
structure Gateway where
  resolveHandle : String → Except PyErr (Option String)
  channelsApi : String → Except PyErr (Option String)
  playlistItemsApi : String → Option String → Except PyErr PageResponse
  videosApi : List String → Except PyErr (Option (List VideoItem))

/-- Body of `ScraperThread.call_playlist_items_api` (the `try`/`except`
around `request.execute()`): an `HttpError` with status 404 is
reclassified as `ValueError("No uploads playlist found")`; any other
failure is wrapped into a generic
`Exception("Error in playlistItems API: ...")`. -/
def playlistItemsBody (raw : Except PyErr PageResponse) : Except PyErr PageResponse :=
  match raw with
  | .ok r => .ok r
  | .error (.httpError s) =>
    if s = 404 then .error (.valueError "No uploads playlist found")
    else .error (.exception ("Error in playlistItems API: " ++ (PyErr.httpError s).str))
  | .error e => .error (.exception ("Error in playlistItems API: " ++ e.str))

/-- `ScraperThread.call_playlist_items_api` together with its tenacity
decorator (3 attempts, retry on `HttpError`).  `attempts i` is the raw
outcome of the `i`-th execution of `request.execute()`; the second
component of the result is how many executions happened. -/
def call_playlist_items_api (attempts : Nat → Except PyErr PageResponse) :
    Except PyErr PageResponse × Nat :=
  retryCall PyErr.isHttpError (fun i => playlistItemsBody (attempts i)) 3 0

/-- Body of `ScraperThread.call_channels_api`: any failure is wrapped into
`Exception("Error in channels API: ...")`. -/
def channelsBody (raw : Except PyErr (Option String)) : Except PyErr (Option String) :=
  match raw with
  | .ok r => .ok r
  | .error e => .error (.exception ("Error in channels API: " ++ e.str))

/-- `ScraperThread.call_channels_api` with its tenacity decorator. -/
def call_channels_api (attempts : Nat → Except PyErr (Option String)) :
    Except PyErr (Option String) × Nat :=
  retryCall PyErr.isHttpError (fun i => channelsBody (attempts i)) 3 0

/-- Body of `ScraperThread.call_videos_api`: any failure is wrapped into
`Exception("Error in videos API: ...")`. -/
def videosBody (raw : Except PyErr (Option (List VideoItem))) :
    Except PyErr (Option (List VideoItem)) :=
  match raw with
  | .ok r => .ok r
  | .error e => .error (.exception ("Error in videos API: " ++ e.str))

/-- `ScraperThread.call_videos_api` with its tenacity decorator. -/
def call_videos_api (attempts : Nat → Except PyErr (Option (List VideoItem))) :
    Except PyErr (Option (List VideoItem)) × Nat :=
  retryCall PyErr.isHttpError (fun i => videosBody (attempts i)) 3 0

/-- `ScraperThread.get_channel_id` (note: this method has no retry
decorator in the source).  A missing/empty `items` becomes
`ValueError("No channel found for handle ...")`, which is re-raised
unchanged; any other failure is wrapped into a generic `Exception`. -/
def get_channel_id (gw : Gateway) (channel_handle : String) : Except PyErr String :=
  match gw.resolveHandle channel_handle with
  | .ok (some cid) => .ok cid
  | .ok none => .error (.valueError ("No channel found for handle " ++ channel_handle))
  | .error (.valueError m) => .error (.valueError m)
  | .error e =>
    .error (.exception ("Error fetching channel ID for " ++ channel_handle ++ ": " ++ e.str))

/-- Helper: the first execution succeeds, so the decorated call returns it
after exactly one execution. -/
theorem retryCall_first_ok (retryOn : PyErr → Bool) (work : Nat → Except PyErr α)
    (a : α) (h : work 0 = .ok a) (n : Nat) :
    retryCall retryOn work (n + 2) 0 = (.ok a, 1) := by
  simp only [retryCall]
  rw [h]

/-- Helper: the first execution fails with a non-retryable error, so the
decorated call surfaces it after exactly one execution. -/
theorem retryCall_first_nonretry (retryOn : PyErr → Bool) (work : Nat → Except PyErr α)
    (e : PyErr) (h : work 0 = .error e) (he : retryOn e = false) (n : Nat) :
    retryCall retryOn work (n + 2) 0 = (.error e, 1) := by
  simp only [retryCall]
  rw [h]
  simp [he]

/-- The body of `call_playlist_items_api` never lets an `HttpError`
escape: it re-raises every failure as `ValueError` or plain `Exception`. -/
theorem playlistItemsBody_not_http (raw : Except PyErr PageResponse) (e : PyErr)
    (h : playlistItemsBody raw = .error e) : e.isHttpError = false := by
  cases raw with
  | ok r => simp [playlistItemsBody] at h
  | error e0 =>
    cases e0 with
    | httpError s =>
      by_cases hs : s = 404 <;> simp [playlistItemsBody, hs] at h <;> subst h <;> rfl
    | valueError m => simp [playlistItemsBody] at h; subst h; rfl
    | exception m => simp [playlistItemsBody] at h; subst h; rfl

theorem channelsBody_not_http (raw : Except PyErr (Option String)) (e : PyErr)
    (h : channelsBody raw = .error e) : e.isHttpError = false := by
  cases raw with
  | ok r => simp [channelsBody] at h
  | error e0 => simp [channelsBody] at h; subst h; rfl

theorem videosBody_not_http (raw : Except PyErr (Option (List VideoItem))) (e : PyErr)
    (h : videosBody raw = .error e) : e.isHttpError = false := by
  cases raw with
  | ok r => simp [videosBody] at h
  | error e0 => simp [videosBody] at h; subst h; rfl

/-- Outcome of one decorated playlist-page fetch against a deterministic
gateway (every execution of the request gives the same raw outcome, as
in `ScraperThread.run`, where the call is simply re-issued). -/
def playlistRes (gw : Gateway) (playlistId : String) (tok : Option String) :
    Except PyErr PageResponse :=
  (call_playlist_items_api (fun _ => gw.playlistItemsApi playlistId tok)).1

def channelsRes (gw : Gateway) (channelId : String) : Except PyErr (Option String) :=
  (call_channels_api (fun _ => gw.channelsApi channelId)).1

def videosRes (gw : Gateway) (ids : List String) : Except PyErr (Option (List VideoItem)) :=
  (call_videos_api (fun _ => gw.videosApi ids)).1

/-- Because the body converts every `HttpError` before the retry predicate
can see it, the decorated playlist call always collapses to a single
execution of the body. -/
theorem playlistRes_eq (gw : Gateway) (p : String) (t : Option String) :
    playlistRes gw p t = playlistItemsBody (gw.playlistItemsApi p t) := by
  unfold playlistRes call_playlist_items_api
  cases hb : playlistItemsBody (gw.playlistItemsApi p t) with
  | ok r =>
    rw [show (3 : Nat) = 1 + 2 from rfl,
      retryCall_first_ok PyErr.isHttpError _ r hb 1]
  | error e =>
    rw [show (3 : Nat) = 1 + 2 from rfl,
      retryCall_first_nonretry PyErr.isHttpError _ e hb
        (playlistItemsBody_not_http _ e hb) 1]

theorem channelsRes_eq (gw : Gateway) (cid : String) :
    channelsRes gw cid = channelsBody (gw.channelsApi cid) := by
  unfold channelsRes call_channels_api
  cases hb : channelsBody (gw.channelsApi cid) with
  | ok r =>
    rw [show (3 : Nat) = 1 + 2 from rfl,
      retryCall_first_ok PyErr.isHttpError _ r hb 1]
  | error e =>
    rw [show (3 : Nat) = 1 + 2 from rfl,
      retryCall_first_nonretry PyErr.isHttpError _ e hb
        (channelsBody_not_http _ e hb) 1]

theorem videosRes_eq (gw : Gateway) (ids : List String) :
    videosRes gw ids = videosBody (gw.videosApi ids) := by
  unfold videosRes call_videos_api
  cases hb : videosBody (gw.videosApi ids) with
  | ok r =>
    rw [show (3 : Nat) = 1 + 2 from rfl,
      retryCall_first_ok PyErr.isHttpError _ r hb 1]
  | error e =>
    rw [show (3 : Nat) = 1 + 2 from rfl,
      retryCall_first_nonretry PyErr.isHttpError _ e hb
        (videosBody_not_http _ e hb) 1]

/-- A page fetch whose first two executions would fail with a transient
HTTP 500 and whose third execution would succeed. -/
def pageC1 : PageResponse := ⟨1, some ["v1"], none⟩

def attemptsC1 : Nat → Except PyErr PageResponse :=
  fun i => if i < 2 then .error (.httpError 500) else .ok pageC1

/-- C1: the retry decoration is dead code.  On a transient HTTP 500 the
decorated page fetch executes the remote call exactly once and surfaces
the wrapped generic `Exception`; the success available on the third
attempt is never reached, because the function body catches the
`HttpError` and re-raises a plain `Exception`, which
`retry_if_exception_type(HttpError)` does not retry. -/
theorem C1_transient_error_not_retried :
    call_playlist_items_api attemptsC1 =
      (.error (.exception "Error in playlistItems API: HttpError 500"), 1) ∧
    (call_playlist_items_api attemptsC1).1 ≠ .ok pageC1 :=
  ⟨rfl, fun h => nomatch h⟩

/-- C2: a page fetch whose execution fails with a permanent HTTP 404 is
executed exactly once (no retry) and surfaces immediately as
`ValueError("No uploads playlist found")`. -/
theorem C2_permanent_404_single_call (attempts : Nat → Except PyErr PageResponse)
    (h : attempts 0 = .error (.httpError 404)) :
    call_playlist_items_api attempts =
      (.error (.valueError "No uploads playlist found"), 1) := by
  unfold call_playlist_items_api
  have hb : playlistItemsBody (attempts 0) =
      .error (.valueError "No uploads playlist found") := by
    rw [h]; rfl
  rw [show (3 : Nat) = 1 + 2 from rfl,
    retryCall_first_nonretry PyErr.isHttpError _
      (.valueError "No uploads playlist found") hb rfl 1]

/-- Witness for C2 at a concrete input. -/
theorem C2_witness :
    call_playlist_items_api (fun _ => .error (.httpError 404)) =
      (.error (.valueError "No uploads playlist found"), 1) :=
  C2_permanent_404_single_call (fun _ => .error (.httpError 404)) rfl

/-- Qt signal emissions of `ScraperThread`, in emission order.
`statusUpdate`/`addRow`/`newTab`/`progressUpdate`/`enableSaveButton`/
`errorOccurred` correspond 1:1 to `status_update`, `add_row`, `new_tab`,
`progress_update`, `enable_save_button` and `error_occurred`. -/
inductive Event where
  | statusUpdate (msg : String)
  | addRow (channelHandle title url : String)
  | newTab (channelHandle : String)
  | progressUpdate (percent : Nat)
  | enableSaveButton (enabled : Bool)
  | errorOccurred (msg : String)
deriving DecidableEq, Repr

/-- The remote requests `ScraperThread.run` issues, in order.
`channelsForHandle` is `channels().list(part='id', forHandle=...)` from
`get_channel_id`; `channelsById` is `channels().list(part='contentDetails',
id=...)` from `call_channels_api`; `playlistItems` records the
`playlistId`, `maxResults` and `pageToken` arguments of
`playlistItems().list`; `videosList` records the video-id list of
`videos().list`. -/
inductive ApiCall where
  | channelsForHandle (handle : String)
  | channelsById (channelId : String)
  | playlistItems (playlistId : String) (maxResults : Nat) (pageToken : Option String)
  | videosList (ids : List String)
deriving DecidableEq, Repr

/-- Python `str.strip()`: drop leading and trailing whitespace.  (Defined
over the character list so that it computes by kernel reduction; Python
strips Unicode whitespace, `Char.isWhitespace` the ASCII subset, which
agrees on every input the claims involve.) -/
def pyStrip (s : String) : String :=
  String.mk (((s.data.dropWhile Char.isWhitespace).reverse.dropWhile
    Char.isWhitespace).reverse)

/-- `display_handle = channel_handle[1:] if channel_handle.startswith('@')
else channel_handle`. -/
def displayHandle (h : String) : String :=
  match h.data with
  | c :: rest => if c = '@' then String.mk rest else h
  | [] => h

/-- The video url built at line 237 of the source. -/
def videoUrl (videoId : String) : String :=
  "https://www.youtube.com/watch?v=" ++ videoId

/-- The inner `for item in videos_response['items']` loop: one `add_row`
per response item, incrementing `processed_videos`, followed by a
`progress_update` whenever `total_videos > 0`.  Python computes
`int(processed_videos / total_videos * 100)` in floating point; for the
(nonnegative, small) values involved this is the rational floor
`processed * 100 / total`, which is how the model renders it. -/
def emitRows (dh : String) (total : Nat) : Nat → List VideoItem → List Event
  | _, [] => []
  | processed, v :: rest =>
    Event.addRow dh v.title (videoUrl v.id) ::
      ((if 0 < total then [Event.progressUpdate ((processed + 1) * 100 / total)] else []) ++
        emitRows dh total (processed + 1) rest)

/-- The `while has_next_page` pagination loop of `ScraperThread.run`,
working on the current `playlist_response`.  Fuel bounds the number of
iterations (the Python loop has no such bound; `none` as outcome marks
fuel exhaustion and arises only there).  Returns the events emitted, the
remote calls issued, and the outcome: `some (.ok n)` when the loop exits
normally with `processed_videos = n`, `some (.error e)` when the body
raised `e` (to be caught by the per-channel handler). -/
def pageLoop (gw : Gateway) (uploadsId dh ch : String) (total : Nat) :
    Nat → PageResponse → Nat → List Event × List ApiCall × Option (Except PyErr Nat)
  | 0, _, _ => ([], [], none)
  | fuel + 1, resp, processed =>
    let ev0 := Event.statusUpdate ("Processing page for " ++ ch ++ "...")
    match resp.items with
    | none =>
      -- `playlist_response['items']` on a later page without the key:
      -- Python raises `KeyError('items')`.
      ([ev0], [], some (.error (.exception "'items'")))
    | some videoIds =>
      let vcall := ApiCall.videosList videoIds
      match videosRes gw videoIds with
      | .error e => ([ev0], [vcall], some (.error e))
      | .ok none =>
        ([ev0], [vcall],
          some (.error (.valueError ("Failed to retrieve video data for " ++ ch))))
      | .ok (some vitems) =>
        let rows := emitRows dh total processed vitems
        let processed2 := processed + vitems.length
        match resp.nextPageToken with
        | none => (ev0 :: rows, [vcall], some (.ok processed2))
        | some tok =>
          let pcall := ApiCall.playlistItems uploadsId 50 (some tok)
          match playlistRes gw uploadsId (some tok) with
          | .error e => (ev0 :: rows, [vcall, pcall], some (.error e))
          | .ok resp2 =>
            let r := pageLoop gw uploadsId dh ch total fuel resp2 processed2
            (ev0 :: rows ++ r.1, vcall :: pcall :: r.2.1, r.2.2)

/-- The body of the per-channel `try` block of `ScraperThread.run`
(resolution, channel details, first page, `new_tab`, then the pagination
loop).  Returns events, calls, the updated `total_videos`, and the
outcome (`some (.error e)` for an exception caught by the per-channel
handler, `none` for page-loop fuel exhaustion). -/
def processChannel (gw : Gateway) (fuel : Nat) (total : Nat) (ch : String) :
    List Event × List ApiCall × Nat × Option (Except PyErr Unit) :=
  let rcall := ApiCall.channelsForHandle ch
  match get_channel_id gw ch with
  | .error e => ([], [rcall], total, some (.error e))
  | .ok cid =>
    let ccall := ApiCall.channelsById cid
    match channelsRes gw cid with
    | .error e => ([], [rcall, ccall], total, some (.error e))
    | .ok none =>
      ([], [rcall, ccall], total,
        some (.error (.valueError ("Failed to retrieve channel data for " ++ ch))))
    | .ok (some uploadsId) =>
      let pcall := ApiCall.playlistItems uploadsId 50 none
      match playlistRes gw uploadsId none with
      | .error e => ([], [rcall, ccall, pcall], total, some (.error e))
      | .ok resp =>
        let total2 := total + resp.totalResults
        let dh := displayHandle ch
        match resp.items with
        | none =>
          -- the `'items' not in playlist_response` check happens after
          -- `new_tab.emit`, so the tab is still announced
          ([Event.newTab dh], [rcall, ccall, pcall], total2,
            some (.error (.valueError ("Failed to retrieve playlist items for " ++ ch))))
        | some _ =>
          let r := pageLoop gw uploadsId dh ch total2 fuel resp 0
          (Event.newTab dh :: r.1, rcall :: ccall :: pcall :: r.2.1, total2,
            match r.2.2 with
            | none => none
            | some (.ok _) => some (.ok ())
            | some (.error e) => some (.error e))

/-- The `error_occurred` message emitted by the per-channel handlers:
`except ValueError` emits `f"{str(e)} for handle {ch}"`, the generic
`except Exception` emits `f"Error processing {ch}: {str(e)}"`. -/
def errEvent (e : PyErr) (ch : String) : Event :=
  match e with
  | .valueError m => Event.errorOccurred (m ++ " for handle " ++ ch)
  | _ => Event.errorOccurred ("Error processing " ++ ch ++ ": " ++ e.str)

/-- The `for channel_handle in self.channel_handles` loop: strip the
handle, skip it when empty or already processed, otherwise run the
per-channel body, record the handle as processed in every outcome, and
continue.  The final boolean is true when the loop (model) ran to
completion, false only on fuel exhaustion. -/
def channelLoop (gw : Gateway) (fuel : Nat) :
    List String → List String → Nat → List Event × List ApiCall × Bool
  | [], _, _ => ([], [], true)
  | h :: rest, seen, total =>
    let ch := pyStrip h
    if ch = "" ∨ ch ∈ seen then channelLoop gw fuel rest seen total
    else
      let ev0 := Event.statusUpdate ("Processing " ++ ch ++ "...")
      let r := processChannel gw fuel total ch
      match r.2.2.2 with
      | none => (ev0 :: r.1, r.2.1, false)
      | some (.ok _) =>
        let rc := channelLoop gw fuel rest (ch :: seen) r.2.2.1
        (ev0 :: r.1 ++ rc.1, r.2.1 ++ rc.2.1, rc.2.2)
      | some (.error e) =>
        let rc := channelLoop gw fuel rest (ch :: seen) r.2.2.1
        (ev0 :: r.1 ++ errEvent e ch :: rc.1, r.2.1 ++ rc.2.1, rc.2.2)

/-- `ScraperThread.run`: input validation, then the channel loop, then
`status_update("Complete")` and `enable_save_button(True)`.  A validation
failure propagates to the outer handler, which emits `error_occurred`.
The final boolean mirrors the channel loop's completion flag. -/
def runScraper (gw : Gateway) (apiKey : String) (channel_handles : List String)
    (fuel : Nat) : List Event × List ApiCall × Bool :=
  let ev0 := Event.statusUpdate "Starting..."
  if apiKey = "" then
    ([ev0, Event.errorOccurred "API key is required"], [], false)
  else if channel_handles = [] then
    ([ev0, Event.errorOccurred "At least one channel handle is required"], [], false)
  else
    let r := channelLoop gw fuel channel_handles [] 0
    (ev0 :: r.1 ++
        (if r.2.2 then [Event.statusUpdate "Complete", Event.enableSaveButton true] else []),
      r.2.1, r.2.2)

/-- The character filter of `save_to_file`:
`char.isalnum() or char in ('-', '_')`.  (Python's `isalnum` is
Unicode-aware; the model uses the ASCII predicate, which agrees on the
alphanumeric/dash/underscore alphabet the claims are about.) -/
def keepChar (c : Char) : Bool :=
  c.isAlphanum || c = '-' || c = '_'

/-- `"".flatten(char for char in channel_handle if ...).rstrip()`. -/
def sanitize (channel_handle : String) : String :=
  String.mk (((channel_handle.toList.filter keepChar).reverse.dropWhile
    Char.isWhitespace).reverse)

/-- Appending one `[title, url]` row to `channel_data[channel_handle]`,
creating the key (at the end, preserving dict insertion order) when it is
new. -/
def addEntry (acc : List (String × List (String × String))) (ch : String)
    (row : String × String) : List (String × List (String × String)) :=
  match acc with
  | [] => [(ch, [row])]
  | (k, rows) :: rest =>
    if k = ch then (k, rows ++ [row]) :: rest
    else (k, rows) :: addEntry rest ch row

/-- The `channel_data` dictionary built by `save_to_file` from
`self.url_list` (triples `channel_handle, title, url`), keeping only rows
of selected channels. -/
def channelData (url_list : List (String × String × String))
    (selected_channels : List String) : List (String × List (String × String)) :=
  url_list.foldl
    (fun acc e => if e.1 ∈ selected_channels then addEntry acc e.1 (e.2.1, e.2.2) else acc)
    []

/-- The files written by `save_to_file`: one per `channel_data` entry,
named `f"{safe_handle}_output.{export_format}"`, holding that channel's
rows in order. -/
def savedFiles (url_list : List (String × String × String))
    (selected_channels : List String) (ext : String) :
    List (String × List (String × String)) :=
  (channelData url_list selected_channels).map
    (fun e => (sanitize e.1 ++ "_output." ++ ext, e.2))

/-- The `progress_update` percentages of an event list, in order. -/
def progressValues (evs : List Event) : List Nat :=
  evs.filterMap (fun e => match e with | .progressUpdate n => some n | _ => none)

/-- The `add_row` events of an event list, in order. -/
def addRowsOf (evs : List Event) : List Event :=
  evs.filter (fun e => match e with | .addRow _ _ _ => true | _ => false)

/-- The `error_occurred` events of an event list, in order. -/
def errorsOf (evs : List Event) : List Event :=
  evs.filter (fun e => match e with | .errorOccurred _ => true | _ => false)

/-- The `new_tab` handles of an event list, in order. -/
def newTabsOf (evs : List Event) : List String :=
  evs.filterMap (fun e => match e with | .newTab h => some h | _ => none)

theorem progressValues_append (l₁ l₂ : List Event) :
    progressValues (l₁ ++ l₂) = progressValues l₁ ++ progressValues l₂ :=
  List.filterMap_append l₁ l₂ _

theorem addRowsOf_append (l₁ l₂ : List Event) :
    addRowsOf (l₁ ++ l₂) = addRowsOf l₁ ++ addRowsOf l₂ :=
  List.filter_append ..

theorem errorsOf_append (l₁ l₂ : List Event) :
    errorsOf (l₁ ++ l₂) = errorsOf l₁ ++ errorsOf l₂ :=
  List.filter_append ..

theorem newTabsOf_append (l₁ l₂ : List Event) :
    newTabsOf (l₁ ++ l₂) = newTabsOf l₁ ++ newTabsOf l₂ :=
  List.filterMap_append l₁ l₂ _

theorem memOfGetLast {α : Type _} {l : List α} {x : α} (h : x ∈ l.getLast?) : x ∈ l := by
  rcases List.mem_getLast?_eq_getLast h with ⟨hne, rfl⟩
  exact List.getLast_mem hne

/-- Invariant for progress percentages emitted between row counts `p`
(exclusive) and `hi` (inclusive): the list is non-decreasing and every
value is the floored percentage of some row count in the window. -/
def PvOk (total p hi : Nat) (pv : List Nat) : Prop :=
  List.Chain' (fun a b => a ≤ b) pv ∧
    ∀ v ∈ pv, ∃ q, p < q ∧ q ≤ hi ∧ v = q * 100 / total

theorem PvOk.nil (total p hi : Nat) : PvOk total p hi [] :=
  ⟨List.chain'_nil, by simp⟩

theorem PvOk.widen {total p hi pv} (h : PvOk total p hi pv) {p' hi' : Nat}
    (hp : p' ≤ p) (hhi : hi ≤ hi') : PvOk total p' hi' pv := by
  refine ⟨h.1, fun v hv => ?_⟩
  obtain ⟨q, hq1, hq2, hq3⟩ := h.2 v hv
  exact ⟨q, lt_of_le_of_lt hp hq1, le_trans hq2 hhi, hq3⟩

theorem PvOk.append {total p mid hi pv₁ pv₂} (h₁ : PvOk total p mid pv₁)
    (h₂ : PvOk total mid hi pv₂) (hmid : p ≤ mid) (hhi : mid ≤ hi) :
    PvOk total p hi (pv₁ ++ pv₂) := by
  constructor
  · refine h₁.1.append h₂.1 (fun x hx y hy => ?_)
    obtain ⟨q1, _, hq12, hq13⟩ := h₁.2 x (memOfGetLast hx)
    obtain ⟨q2, hq21, _, hq23⟩ := h₂.2 y (List.mem_of_mem_head? hy)
    subst hq13; subst hq23
    exact Nat.div_le_div_right (Nat.mul_le_mul_right 100 (le_of_lt (lt_of_le_of_lt hq12 hq21)))
  · intro v hv
    rcases List.mem_append.1 hv with hv | hv
    · exact ((h₁.widen le_rfl hhi).2 v hv)
    · exact ((h₂.widen hmid le_rfl).2 v hv)

theorem emitRows_progress (dh : String) (total : Nat) :
    ∀ (vitems : List VideoItem) (p : Nat),
      PvOk total p (p + vitems.length) (progressValues (emitRows dh total p vitems)) := by
  intro vitems
  induction vitems with
  | nil => intro p; exact PvOk.nil total p p
  | cons v rest ih =>
    intro p
    have hrest := ih (p + 1)
    show PvOk total p (p + (rest.length + 1))
      (progressValues (Event.addRow dh v.title (videoUrl v.id) ::
        ((if 0 < total then [Event.progressUpdate ((p + 1) * 100 / total)] else []) ++
          emitRows dh total (p + 1) rest)))
    have hsplit : progressValues (Event.addRow dh v.title (videoUrl v.id) ::
        ((if 0 < total then [Event.progressUpdate ((p + 1) * 100 / total)] else []) ++
          emitRows dh total (p + 1) rest)) =
        progressValues (if 0 < total then [Event.progressUpdate ((p + 1) * 100 / total)] else []) ++
          progressValues (emitRows dh total (p + 1) rest) := by
      simp [progressValues, List.filterMap_append]
    rw [hsplit]
    have hhead : PvOk total p (p + 1)
        (progressValues (if 0 < total then [Event.progressUpdate ((p + 1) * 100 / total)] else [])) := by
      by_cases ht : 0 < total
      · simp only [ht, if_true]
        refine ⟨List.chain'_singleton _, fun v hv => ?_⟩
        simp [progressValues] at hv
        exact ⟨p + 1, Nat.lt_succ_self p, le_rfl, hv⟩
      · simp only [ht, if_false]
        exact PvOk.nil total p (p + 1)
    have := (hhead.append hrest (Nat.le_succ p) (Nat.le_add_right _ _))
    have harith : p + 1 + rest.length = p + (rest.length + 1) := by omega
    rw [harith] at this
    exact this

theorem addRowsOf_emitRows (dh : String) (total : Nat) :
    ∀ (vitems : List VideoItem) (p : Nat),
      (addRowsOf (emitRows dh total p vitems)).length = vitems.length := by
  intro vitems
  induction vitems with
  | nil => intro p; simp [emitRows, addRowsOf]
  | cons v rest ih =>
    intro p
    by_cases ht : 0 < total <;>
      simp [emitRows, addRowsOf, List.filter_append, ht] <;>
      simpa [addRowsOf] using ih (p + 1)

theorem pageLoop_progress (gw : Gateway) (uploadsId dh ch : String) (total : Nat) :
    ∀ (fuel : Nat) (resp : PageResponse) (p : Nat),
      PvOk total p
        (p + (addRowsOf (pageLoop gw uploadsId dh ch total fuel resp p).1).length)
        (progressValues (pageLoop gw uploadsId dh ch total fuel resp p).1) := by
  intro fuel
  induction fuel with
  | zero =>
    intro resp p
    simpa [pageLoop, addRowsOf, progressValues] using PvOk.nil total p p
  | succ fuel ih =>
    intro resp p
    cases hitems : resp.items with
    | none =>
      simpa [pageLoop, hitems, addRowsOf, progressValues] using PvOk.nil total p p
    | some videoIds =>
      cases hv : videosRes gw videoIds with
      | error e =>
        simpa [pageLoop, hitems, hv, addRowsOf, progressValues] using PvOk.nil total p p
      | ok vopt =>
        cases vopt with
        | none =>
          simpa [pageLoop, hitems, hv, addRowsOf, progressValues] using PvOk.nil total p p
        | some vitems =>
          cases htok : resp.nextPageToken with
          | none =>
            have heq : (pageLoop gw uploadsId dh ch total (fuel + 1) resp p).1 =
                Event.statusUpdate ("Processing page for " ++ ch ++ "...") ::
                  emitRows dh total p vitems := by
              simp only [pageLoop, hitems, hv, htok]
            rw [heq]
            show PvOk total p
              (p + (addRowsOf (emitRows dh total p vitems)).length)
              (progressValues (emitRows dh total p vitems))
            rw [addRowsOf_emitRows]
            exact emitRows_progress dh total vitems p
          | some tok =>
            cases hpl : playlistRes gw uploadsId (some tok) with
            | error e =>
              have heq : (pageLoop gw uploadsId dh ch total (fuel + 1) resp p).1 =
                  Event.statusUpdate ("Processing page for " ++ ch ++ "...") ::
                    emitRows dh total p vitems := by
                simp only [pageLoop, hitems, hv, htok, hpl]
              rw [heq]
              show PvOk total p
                (p + (addRowsOf (emitRows dh total p vitems)).length)
                (progressValues (emitRows dh total p vitems))
              rw [addRowsOf_emitRows]
              exact emitRows_progress dh total vitems p
            | ok resp2 =>
              have heq : (pageLoop gw uploadsId dh ch total (fuel + 1) resp p).1 =
                  Event.statusUpdate ("Processing page for " ++ ch ++ "...") ::
                    (emitRows dh total p vitems ++
                      (pageLoop gw uploadsId dh ch total fuel resp2 (p + vitems.length)).1) := by
                simp only [pageLoop, hitems, hv, htok, hpl]
                simp
              rw [heq]
              show PvOk total p
                (p + (addRowsOf (emitRows dh total p vitems ++
                  (pageLoop gw uploadsId dh ch total fuel resp2 (p + vitems.length)).1)).length)
                (progressValues (emitRows dh total p vitems ++
                  (pageLoop gw uploadsId dh ch total fuel resp2 (p + vitems.length)).1))
              rw [addRowsOf_append, progressValues_append, List.length_append,
                addRowsOf_emitRows]
              have h1 := emitRows_progress dh total vitems p
              have h2 := ih resp2 (p + vitems.length)
              have happ := h1.append h2 (Nat.le_add_right _ _) (Nat.le_add_right _ _)
              have harith : p + vitems.length +
                  (addRowsOf (pageLoop gw uploadsId dh ch total fuel resp2
                    (p + vitems.length)).1).length =
                  p + (vitems.length +
                    (addRowsOf (pageLoop gw uploadsId dh ch total fuel resp2
                      (p + vitems.length)).1).length) := by omega
              rw [harith] at happ
              exact happ

/-- A well-behaved gateway with two channels of one video each: handle
`@A` resolves to channel `cidA` with uploads playlist `upA` containing
video `a1`, and likewise for `@B`. -/
def gwC3 : Gateway where
  resolveHandle := fun h =>
    if h = "@A" then .ok (some "cidA")
    else if h = "@B" then .ok (some "cidB")
    else .ok none
  channelsApi := fun cid =>
    if cid = "cidA" then .ok (some "upA") else .ok (some "upB")
  playlistItemsApi := fun up _ =>
    if up = "upA" then .ok ⟨1, some ["a1"], none⟩ else .ok ⟨1, some ["b1"], none⟩
  videosApi := fun ids => .ok (some (ids.map (fun i => ⟨i, "T" ++ i⟩)))

/-- C3 fails as stated: across channels the emitted percentages are not
non-decreasing.  With two one-video channels the run emits 100 (1/1 of
the first channel's accumulated estimate) and then 50 (the per-channel
row counter resets to 0 while the estimate accumulates to 2). -/
theorem C3_counterexample :
    progressValues (runScraper gwC3 "k" ["@A", "@B"] 5).1 = [100, 50] ∧
    ¬ List.Chain' (fun a b => a ≤ b)
        (progressValues (runScraper gwC3 "k" ["@A", "@B"] 5).1) := by
  refine ⟨rfl, fun hc => ?_⟩
  rw [show progressValues (runScraper gwC3 "k" ["@A", "@B"] 5).1 = [100, 50] from rfl]
    at hc
  have := (List.chain'_cons.1 hc).1
  omega

/-- C3 (amended): within one channel's pagination loop the emitted
percentages are non-decreasing, and they never exceed 100 provided the
channel's emitted row count does not exceed the accumulated total
estimate; across channel boundaries the value may decrease, because
`processed_videos` resets to 0 while `total_videos` accumulates. -/
theorem C3_progress_per_channel (gw : Gateway) (uploadsId dh ch : String)
    (total fuel : Nat) (resp : PageResponse) :
    List.Chain' (fun a b => a ≤ b)
      (progressValues (pageLoop gw uploadsId dh ch total fuel resp 0).1) ∧
    ((addRowsOf (pageLoop gw uploadsId dh ch total fuel resp 0).1).length ≤ total →
      ∀ v ∈ progressValues (pageLoop gw uploadsId dh ch total fuel resp 0).1, v ≤ 100) := by
  have h := pageLoop_progress gw uploadsId dh ch total fuel resp 0
  refine ⟨h.1, fun hle v hv => ?_⟩
  obtain ⟨q, hq1, hq2, hq3⟩ := h.2 v hv
  subst hq3
  have hqt : q ≤ total := le_trans (by simpa using hq2) hle
  have ht : 0 < total := lt_of_lt_of_le hq1 hqt
  calc q * 100 / total ≤ total * 100 / total :=
        Nat.div_le_div_right (Nat.mul_le_mul_right 100 hqt)
    _ = 100 := Nat.mul_div_cancel_left 100 ht

/-- Witness for C3 (amended) on a concrete one-page channel. -/
theorem C3_progress_witness :
    List.Chain' (fun a b => a ≤ b)
      (progressValues (pageLoop gwC3 "upA" "A" "@A" 1 5 ⟨1, some ["a1"], none⟩ 0).1) ∧
    ∀ v ∈ progressValues (pageLoop gwC3 "upA" "A" "@A" 1 5 ⟨1, some ["a1"], none⟩ 0).1,
      v ≤ 100 := by
  have h := C3_progress_per_channel gwC3 "upA" "A" "@A" 1 5 ⟨1, some ["a1"], none⟩
  exact ⟨h.1, h.2 (by rfl)⟩

/-- Every event emitted by the row loop is an `add_row` built from an
item of the videos response, or a `progress_update`. -/
theorem emitRows_mem (dh : String) (total : Nat) :
    ∀ (vitems : List VideoItem) (p : Nat) (e : Event), e ∈ emitRows dh total p vitems →
      (∃ v, v ∈ vitems ∧ e = .addRow dh v.title (videoUrl v.id)) ∨
        (∃ n, e = .progressUpdate n) := by
  intro vitems
  induction vitems with
  | nil => intro p e he; simp [emitRows] at he
  | cons v rest ih =>
    intro p e he
    rcases List.mem_cons.1 he with h | h
    · exact Or.inl ⟨v, List.mem_cons_self v rest, h⟩
    · rcases List.mem_append.1 h with h | h
      · by_cases ht : 0 < total
        · simp [ht] at h
          exact Or.inr ⟨(p + 1) * 100 / total, h⟩
        · simp [ht] at h
      · rcases ih (p + 1) e h with ⟨w, hw, he⟩ | hn
        · exact Or.inl ⟨w, List.mem_cons_of_mem v hw, he⟩
        · exact Or.inr hn

/-- Every event emitted by the pagination loop is a status update, a
progress update, or an `add_row` built from an item of a successful
videos-response for the requested id batch. -/
theorem pageLoop_mem (gw : Gateway) (uploadsId dh ch : String) (total : Nat) :
    ∀ (fuel : Nat) (resp : PageResponse) (p : Nat) (e : Event),
      e ∈ (pageLoop gw uploadsId dh ch total fuel resp p).1 →
      (∃ s, e = .statusUpdate s) ∨ (∃ n, e = .progressUpdate n) ∨
        (∃ ids items v, videosRes gw ids = .ok (some items) ∧ v ∈ items ∧
          e = .addRow dh v.title (videoUrl v.id)) := by
  intro fuel
  induction fuel with
  | zero => intro resp p e he; simp [pageLoop] at he
  | succ fuel ih =>
    intro resp p e he
    cases hitems : resp.items with
    | none =>
      rw [show (pageLoop gw uploadsId dh ch total (fuel + 1) resp p).1 =
        [Event.statusUpdate ("Processing page for " ++ ch ++ "...")] from by
          simp only [pageLoop, hitems]] at he
      simp at he
      exact Or.inl ⟨_, he⟩
    | some videoIds =>
      cases hv : videosRes gw videoIds with
      | error err =>
        rw [show (pageLoop gw uploadsId dh ch total (fuel + 1) resp p).1 =
          [Event.statusUpdate ("Processing page for " ++ ch ++ "...")] from by
            simp only [pageLoop, hitems, hv]] at he
        simp at he
        exact Or.inl ⟨_, he⟩
      | ok vopt =>
        cases vopt with
        | none =>
          rw [show (pageLoop gw uploadsId dh ch total (fuel + 1) resp p).1 =
            [Event.statusUpdate ("Processing page for " ++ ch ++ "...")] from by
              simp only [pageLoop, hitems, hv]] at he
          simp at he
          exact Or.inl ⟨_, he⟩
        | some vitems =>
          have hrow : ∀ e', e' ∈ emitRows dh total p vitems →
              (∃ s, e' = Event.statusUpdate s) ∨ (∃ n, e' = Event.progressUpdate n) ∨
                (∃ ids items v, videosRes gw ids = .ok (some items) ∧ v ∈ items ∧
                  e' = .addRow dh v.title (videoUrl v.id)) := by
            intro e' he'
            rcases emitRows_mem dh total vitems p e' he' with ⟨v, hv2, he2⟩ | ⟨n, hn⟩
            · exact Or.inr (Or.inr ⟨videoIds, vitems, v, hv, hv2, he2⟩)
            · exact Or.inr (Or.inl ⟨n, hn⟩)
          cases htok : resp.nextPageToken with
          | none =>
            rw [show (pageLoop gw uploadsId dh ch total (fuel + 1) resp p).1 =
              Event.statusUpdate ("Processing page for " ++ ch ++ "...") ::
                emitRows dh total p vitems from by
                  simp only [pageLoop, hitems, hv, htok]] at he
            rcases List.mem_cons.1 he with h | h
            · exact Or.inl ⟨_, h⟩
            · exact hrow e h
          | some tok =>
            cases hpl : playlistRes gw uploadsId (some tok) with
            | error err =>
              rw [show (pageLoop gw uploadsId dh ch total (fuel + 1) resp p).1 =
                Event.statusUpdate ("Processing page for " ++ ch ++ "...") ::
                  emitRows dh total p vitems from by
                    simp only [pageLoop, hitems, hv, htok, hpl]] at he
              rcases List.mem_cons.1 he with h | h
              · exact Or.inl ⟨_, h⟩
              · exact hrow e h
            | ok resp2 =>
              rw [show (pageLoop gw uploadsId dh ch total (fuel + 1) resp p).1 =
                Event.statusUpdate ("Processing page for " ++ ch ++ "...") ::
                  (emitRows dh total p vitems ++
                    (pageLoop gw uploadsId dh ch total fuel resp2
                      (p + vitems.length)).1) from by
                    simp only [pageLoop, hitems, hv, htok, hpl]; simp] at he
              rcases List.mem_cons.1 he with h | h
              · exact Or.inl ⟨_, h⟩
              · rcases List.mem_append.1 h with h | h
                · exact hrow e h
                · exact ih resp2 (p + vitems.length) e h

/-- Every event emitted by the per-channel body is the channel's
`new_tab` announcement or one of the pagination-loop events. -/
theorem processChannel_mem (gw : Gateway) (fuel total : Nat) (ch : String) :
    ∀ e ∈ (processChannel gw fuel total ch).1,
      e = .newTab (displayHandle ch) ∨
      (∃ s, e = .statusUpdate s) ∨ (∃ n, e = .progressUpdate n) ∨
        (∃ ids items v, videosRes gw ids = .ok (some items) ∧ v ∈ items ∧
          e = .addRow (displayHandle ch) v.title (videoUrl v.id)) := by
  intro e he
  simp only [processChannel] at he
  cases hg : get_channel_id gw ch with
  | error err => simp only [hg] at he; simp at he
  | ok cid =>
    simp only [hg] at he
    cases hc : channelsRes gw cid with
    | error err => simp only [hc] at he; simp at he
    | ok copt =>
      simp only [hc] at he
      cases copt with
      | none => simp at he
      | some uploadsId =>
        simp only [] at he
        cases hp : playlistRes gw uploadsId none with
        | error err => simp only [hp] at he; simp at he
        | ok resp =>
          simp only [hp] at he
          cases hitems : resp.items with
          | none =>
            simp only [hitems] at he
            simp at he
            exact Or.inl he
          | some ids0 =>
            simp only [hitems, List.mem_cons] at he
            rcases he with he | he
            · exact Or.inl he
            · exact Or.inr (pageLoop_mem gw uploadsId (displayHandle ch) ch
                (total + resp.totalResults) fuel resp 0 e he)

/-- Every event emitted by the channel loop is a status update, an
`error_occurred`, or an event of some per-channel body execution. -/
theorem channelLoop_mem (gw : Gateway) (fuel : Nat) :
    ∀ (hs seen : List String) (total : Nat) (e : Event),
      e ∈ (channelLoop gw fuel hs seen total).1 →
      (∃ s, e = .statusUpdate s) ∨ (∃ m, e = .errorOccurred m) ∨
        (∃ total2 ch, e ∈ (processChannel gw fuel total2 ch).1) := by
  intro hs
  induction hs with
  | nil => intro seen total e he; simp [channelLoop] at he
  | cons h rest ih =>
    intro seen total e he
    by_cases hskip : pyStrip h = "" ∨ pyStrip h ∈ seen
    · rw [show (channelLoop gw fuel (h :: rest) seen total).1 =
        (channelLoop gw fuel rest seen total).1 from by
          simp only [channelLoop, if_pos hskip]] at he
      exact ih seen total e he
    · cases hout : (processChannel gw fuel total (pyStrip h)).2.2.2 with
      | none =>
        rw [show (channelLoop gw fuel (h :: rest) seen total).1 =
          Event.statusUpdate ("Processing " ++ pyStrip h ++ "...") ::
            (processChannel gw fuel total (pyStrip h)).1 from by
              simp only [channelLoop, if_neg hskip, hout]] at he
        rcases List.mem_cons.1 he with he | he
        · exact Or.inl ⟨_, he⟩
        · exact Or.inr (Or.inr ⟨total, pyStrip h, he⟩)
      | some out =>
        cases out with
        | ok u =>
          rw [show (channelLoop gw fuel (h :: rest) seen total).1 =
            Event.statusUpdate ("Processing " ++ pyStrip h ++ "...") ::
              ((processChannel gw fuel total (pyStrip h)).1 ++
                (channelLoop gw fuel rest (pyStrip h :: seen)
                  (processChannel gw fuel total (pyStrip h)).2.2.1).1) from by
                simp only [channelLoop, if_neg hskip, hout]; simp] at he
          rcases List.mem_cons.1 he with he | he
          · exact Or.inl ⟨_, he⟩
          · rcases List.mem_append.1 he with he | he
            · exact Or.inr (Or.inr ⟨total, pyStrip h, he⟩)
            · exact ih _ _ e he
        | error err =>
          rw [show (channelLoop gw fuel (h :: rest) seen total).1 =
            Event.statusUpdate ("Processing " ++ pyStrip h ++ "...") ::
              ((processChannel gw fuel total (pyStrip h)).1 ++
                errEvent err (pyStrip h) ::
                  (channelLoop gw fuel rest (pyStrip h :: seen)
                    (processChannel gw fuel total (pyStrip h)).2.2.1).1) from by
                  simp only [channelLoop, if_neg hskip, hout]; simp] at he
          rcases List.mem_cons.1 he with he | he
          · exact Or.inl ⟨_, he⟩
          · rcases List.mem_append.1 he with he | he
            · exact Or.inr (Or.inr ⟨total, pyStrip h, he⟩)
            · rcases List.mem_cons.1 he with he | he
              · refine Or.inr (Or.inl ?_)
                cases err <;> exact ⟨_, he⟩
              · exact ih _ _ e he

/-- Every event emitted by a run is a status update, an error popup, the
save-button toggle, or an event of some per-channel body execution. -/
theorem runScraper_mem (gw : Gateway) (apiKey : String) (hs : List String) (fuel : Nat) :
    ∀ e ∈ (runScraper gw apiKey hs fuel).1,
      (∃ s, e = .statusUpdate s) ∨ (∃ m, e = .errorOccurred m) ∨
        (∃ b, e = .enableSaveButton b) ∨
        (∃ total2 ch, e ∈ (processChannel gw fuel total2 ch).1) := by
  intro e he
  simp only [runScraper] at he
  by_cases hk : apiKey = ""
  · rw [if_pos hk] at he
    simp at he
    rcases he with he | he
    · exact Or.inl ⟨_, he⟩
    · exact Or.inr (Or.inl ⟨_, he⟩)
  · rw [if_neg hk] at he
    by_cases hh : hs = []
    · rw [if_pos hh] at he
      simp at he
      rcases he with he | he
      · exact Or.inl ⟨_, he⟩
      · exact Or.inr (Or.inl ⟨_, he⟩)
    · rw [if_neg hh] at he
      rcases List.mem_append.1 he with he2 | he2
      · rcases List.mem_cons.1 he2 with he3 | he3
        · exact Or.inl ⟨_, he3⟩
        · rcases channelLoop_mem gw fuel hs [] 0 e he3 with h1 | h1 | h1
          · exact Or.inl h1
          · exact Or.inr (Or.inl h1)
          · exact Or.inr (Or.inr (Or.inr h1))
      · by_cases hdone : (channelLoop gw fuel hs [] 0).2.2 = true
        · rw [if_pos hdone] at he2
          simp at he2
          rcases he2 with he2 | he2
          · exact Or.inl ⟨_, he2⟩
          · exact Or.inr (Or.inr (Or.inl ⟨_, he2⟩))
        · rw [if_neg hdone] at he2
          simp at he2

/-- C10: every emitted `add_row` carries the `snippet.title` of an item
of a successful `videos().list` response, and the url
`"https://www.youtube.com/watch?v=" ++ id` built from that same item's
id. -/
theorem C10_row_fields (gw : Gateway) (apiKey : String) (hs : List String) (fuel : Nat)
    (dh t u : String) (h : Event.addRow dh t u ∈ (runScraper gw apiKey hs fuel).1) :
    ∃ ids items v, videosRes gw ids = .ok (some items) ∧ v ∈ items ∧
      t = v.title ∧ u = "https://www.youtube.com/watch?v=" ++ v.id := by
  rcases runScraper_mem gw apiKey hs fuel _ h with ⟨s, hs1⟩ | ⟨m, hm⟩ | ⟨b, hb⟩ | ⟨t2, ch, hpc⟩
  · exact absurd hs1 (by simp)
  · exact absurd hm (by simp)
  · exact absurd hb (by simp)
  · rcases processChannel_mem gw fuel t2 ch _ hpc with
      h1 | ⟨s, h1⟩ | ⟨n, h1⟩ | ⟨ids, items, v, hv, hvm, h1⟩
    · exact absurd h1 (by simp)
    · exact absurd h1 (by simp)
    · exact absurd h1 (by simp)
    · simp only [Event.addRow.injEq] at h1
      exact ⟨ids, items, v, hv, hvm, h1.2.1, h1.2.2⟩

theorem newTabsOf_cons_status (s : String) (l : List Event) :
    newTabsOf (Event.statusUpdate s :: l) = newTabsOf l := rfl

theorem newTabsOf_cons_tab (h : String) (l : List Event) :
    newTabsOf (Event.newTab h :: l) = h :: newTabsOf l := rfl

theorem newTabsOf_cons_errEvent (e : PyErr) (ch : String) (l : List Event) :
    newTabsOf (errEvent e ch :: l) = newTabsOf l := by
  cases e <;> rfl

theorem newTabsOf_eq_nil {evs : List Event}
    (h : ∀ e ∈ evs, ∀ s, e ≠ Event.newTab s) : newTabsOf evs = [] := by
  induction evs with
  | nil => rfl
  | cons e rest ih =>
    have hrest := ih (fun e' he' s => h e' (List.mem_cons_of_mem e he') s)
    cases e with
    | newTab s => exact absurd rfl (h _ (List.mem_cons_self _ _) s)
    | statusUpdate s => exact hrest
    | addRow a b c => exact hrest
    | progressUpdate n => exact hrest
    | enableSaveButton b => exact hrest
    | errorOccurred m => exact hrest

/-- The pagination loop never announces a tab. -/
theorem pageLoop_no_newTab (gw : Gateway) (uploadsId dh ch : String)
    (total fuel : Nat) (resp : PageResponse) (p : Nat) :
    newTabsOf (pageLoop gw uploadsId dh ch total fuel resp p).1 = [] := by
  refine newTabsOf_eq_nil (fun e he s => ?_)
  rcases pageLoop_mem gw uploadsId dh ch total fuel resp p e he with
    ⟨s', h⟩ | ⟨n, h⟩ | ⟨ids, items, v, _, _, h⟩ <;> subst h <;> simp

/-- Whether the per-channel body reaches the `new_tab.emit` line: handle
resolution, channel details and the first playlist-page fetch all
succeed.  (The `'items' in playlist_response` check comes after the
announcement, so it does not matter here.) -/
def channelOkB (gw : Gateway) (ch : String) : Bool :=
  match get_channel_id gw ch with
  | .error _ => false
  | .ok cid =>
    match channelsRes gw cid with
    | .ok (some uploadsId) =>
      match playlistRes gw uploadsId none with
      | .ok _ => true
      | .error _ => false
    | _ => false

/-- The handles the channel loop actually processes: stripped, with
empty strings and duplicates (first occurrence wins) removed, given the
handles already marked as processed. -/
def dedupStripAux : List String → List String → List String
  | _, [] => []
  | seen, h :: rest =>
    let ch := pyStrip h
    if ch = "" ∨ ch ∈ seen then dedupStripAux seen rest
    else ch :: dedupStripAux (ch :: seen) rest

def dedupStrip (hs : List String) : List String := dedupStripAux [] hs

/- Branch equations for `processChannel`, used throughout the proofs. -/

theorem processChannel_eq_resolveFail {gw : Gateway} {ch : String} {e : PyErr}
    (fuel total : Nat) (hg : get_channel_id gw ch = .error e) :
    processChannel gw fuel total ch =
      ([], [.channelsForHandle ch], total, some (.error e)) := by
  simp only [processChannel, hg]

theorem processChannel_eq_detailsFail {gw : Gateway} {ch cid : String} {e : PyErr}
    (fuel total : Nat) (hg : get_channel_id gw ch = .ok cid)
    (hc : channelsRes gw cid = .error e) :
    processChannel gw fuel total ch =
      ([], [.channelsForHandle ch, .channelsById cid], total, some (.error e)) := by
  simp only [processChannel, hg, hc]

theorem processChannel_eq_detailsNone {gw : Gateway} {ch cid : String}
    (fuel total : Nat) (hg : get_channel_id gw ch = .ok cid)
    (hc : channelsRes gw cid = .ok none) :
    processChannel gw fuel total ch =
      ([], [.channelsForHandle ch, .channelsById cid], total,
        some (.error (.valueError ("Failed to retrieve channel data for " ++ ch)))) := by
  simp only [processChannel, hg, hc]

theorem processChannel_eq_firstPageFail {gw : Gateway} {ch cid uploadsId : String}
    {e : PyErr} (fuel total : Nat) (hg : get_channel_id gw ch = .ok cid)
    (hc : channelsRes gw cid = .ok (some uploadsId))
    (hp : playlistRes gw uploadsId none = .error e) :
    processChannel gw fuel total ch =
      ([], [.channelsForHandle ch, .channelsById cid,
        .playlistItems uploadsId 50 none], total, some (.error e)) := by
  simp only [processChannel, hg, hc, hp]

theorem processChannel_eq_missingItems {gw : Gateway} {ch cid uploadsId : String}
    {resp : PageResponse} (fuel total : Nat) (hg : get_channel_id gw ch = .ok cid)
    (hc : channelsRes gw cid = .ok (some uploadsId))
    (hp : playlistRes gw uploadsId none = .ok resp) (hitems : resp.items = none) :
    processChannel gw fuel total ch =
      ([Event.newTab (displayHandle ch)],
        [.channelsForHandle ch, .channelsById cid, .playlistItems uploadsId 50 none],
        total + resp.totalResults,
        some (.error (.valueError ("Failed to retrieve playlist items for " ++ ch)))) := by
  simp only [processChannel, hg, hc, hp, hitems]

theorem processChannel_eq_paginate {gw : Gateway} {ch cid uploadsId : String}
    {resp : PageResponse} {ids0 : List String} (fuel total : Nat)
    (hg : get_channel_id gw ch = .ok cid)
    (hc : channelsRes gw cid = .ok (some uploadsId))
    (hp : playlistRes gw uploadsId none = .ok resp) (hitems : resp.items = some ids0) :
    processChannel gw fuel total ch =
      (Event.newTab (displayHandle ch) ::
          (pageLoop gw uploadsId (displayHandle ch) ch (total + resp.totalResults)
            fuel resp 0).1,
        .channelsForHandle ch :: .channelsById cid ::
          .playlistItems uploadsId 50 none ::
            (pageLoop gw uploadsId (displayHandle ch) ch (total + resp.totalResults)
              fuel resp 0).2.1,
        total + resp.totalResults,
        match (pageLoop gw uploadsId (displayHandle ch) ch (total + resp.totalResults)
          fuel resp 0).2.2 with
        | none => none
        | some (.ok _) => some (.ok ())
        | some (.error e) => some (.error e)) := by
  simp only [processChannel, hg, hc, hp, hitems]

/- Branch equations for `channelLoop`. -/

theorem channelLoop_eq_skip {gw : Gateway} {fuel : Nat} {h : String}
    {rest seen : List String} {total : Nat}
    (hskip : pyStrip h = "" ∨ pyStrip h ∈ seen) :
    channelLoop gw fuel (h :: rest) seen total =
      channelLoop gw fuel rest seen total := by
  simp only [channelLoop, if_pos hskip]

theorem channelLoop_eq_fuelOut {gw : Gateway} {fuel : Nat} {h : String}
    {rest seen : List String} {total : Nat}
    (hskip : ¬(pyStrip h = "" ∨ pyStrip h ∈ seen))
    (hout : (processChannel gw fuel total (pyStrip h)).2.2.2 = none) :
    channelLoop gw fuel (h :: rest) seen total =
      (Event.statusUpdate ("Processing " ++ pyStrip h ++ "...") ::
        (processChannel gw fuel total (pyStrip h)).1,
        (processChannel gw fuel total (pyStrip h)).2.1, false) := by
  simp only [channelLoop, if_neg hskip, hout]

theorem channelLoop_eq_ok {gw : Gateway} {fuel : Nat} {h : String}
    {rest seen : List String} {total : Nat}
    (hskip : ¬(pyStrip h = "" ∨ pyStrip h ∈ seen))
    (hout : (processChannel gw fuel total (pyStrip h)).2.2.2 = some (.ok ())) :
    channelLoop gw fuel (h :: rest) seen total =
      (Event.statusUpdate ("Processing " ++ pyStrip h ++ "...") ::
          (processChannel gw fuel total (pyStrip h)).1 ++
          (channelLoop gw fuel rest (pyStrip h :: seen)
            (processChannel gw fuel total (pyStrip h)).2.2.1).1,
        (processChannel gw fuel total (pyStrip h)).2.1 ++
          (channelLoop gw fuel rest (pyStrip h :: seen)
            (processChannel gw fuel total (pyStrip h)).2.2.1).2.1,
        (channelLoop gw fuel rest (pyStrip h :: seen)
          (processChannel gw fuel total (pyStrip h)).2.2.1).2.2) := by
  simp only [channelLoop, if_neg hskip, hout]

theorem channelLoop_eq_error {gw : Gateway} {fuel : Nat} {h : String}
    {rest seen : List String} {total : Nat} {e : PyErr}
    (hskip : ¬(pyStrip h = "" ∨ pyStrip h ∈ seen))
    (hout : (processChannel gw fuel total (pyStrip h)).2.2.2 = some (.error e)) :
    channelLoop gw fuel (h :: rest) seen total =
      (Event.statusUpdate ("Processing " ++ pyStrip h ++ "...") ::
          (processChannel gw fuel total (pyStrip h)).1 ++
          errEvent e (pyStrip h) ::
            (channelLoop gw fuel rest (pyStrip h :: seen)
              (processChannel gw fuel total (pyStrip h)).2.2.1).1,
        (processChannel gw fuel total (pyStrip h)).2.1 ++
          (channelLoop gw fuel rest (pyStrip h :: seen)
            (processChannel gw fuel total (pyStrip h)).2.2.1).2.1,
        (channelLoop gw fuel rest (pyStrip h :: seen)
          (processChannel gw fuel total (pyStrip h)).2.2.1).2.2) := by
  simp only [channelLoop, if_neg hskip, hout]

theorem runScraper_eq {gw : Gateway} {apiKey : String} {hs : List String} {fuel : Nat}
    (hk : apiKey ≠ "") (hh : hs ≠ []) :
    runScraper gw apiKey hs fuel =
      (Event.statusUpdate "Starting..." :: (channelLoop gw fuel hs [] 0).1 ++
          (if (channelLoop gw fuel hs [] 0).2.2 = true then
            [Event.statusUpdate "Complete", Event.enableSaveButton true] else []),
        (channelLoop gw fuel hs [] 0).2.1, (channelLoop gw fuel hs [] 0).2.2) := by
  simp only [runScraper, if_neg hk, if_neg hh]

/-- The per-channel body announces exactly one tab — the display handle —
precisely when resolution, details and the first page fetch succeed. -/
theorem processChannel_newTabs (gw : Gateway) (fuel total : Nat) (ch : String) :
    newTabsOf (processChannel gw fuel total ch).1 =
      if channelOkB gw ch then [displayHandle ch] else [] := by
  cases hg : get_channel_id gw ch with
  | error err =>
    rw [processChannel_eq_resolveFail fuel total hg]
    simp only [channelOkB, hg]
    rfl
  | ok cid =>
    cases hc : channelsRes gw cid with
    | error err =>
      rw [processChannel_eq_detailsFail fuel total hg hc]
      simp only [channelOkB, hg, hc]
      rfl
    | ok copt =>
      cases copt with
      | none =>
        rw [processChannel_eq_detailsNone fuel total hg hc]
        simp only [channelOkB, hg, hc]
        rfl
      | some uploadsId =>
        cases hp : playlistRes gw uploadsId none with
        | error err =>
          rw [processChannel_eq_firstPageFail fuel total hg hc hp]
          simp only [channelOkB, hg, hc, hp]
          rfl
        | ok resp =>
          cases hitems : resp.items with
          | none =>
            rw [processChannel_eq_missingItems fuel total hg hc hp hitems]
            simp only [channelOkB, hg, hc, hp]
            rfl
          | some ids0 =>
            rw [processChannel_eq_paginate fuel total hg hc hp hitems]
            simp only [channelOkB, hg, hc, hp]
            show newTabsOf (Event.newTab (displayHandle ch) :: _) = _
            rw [newTabsOf_cons_tab, pageLoop_no_newTab]
            rfl

/-- Under completion, the channel loop announces exactly the deduplicated
stripped handles whose resolution and first page fetch succeed, as
display handles, in input order. -/
theorem channelLoop_newTabs (gw : Gateway) (fuel : Nat) :
    ∀ (hs seen : List String) (total : Nat),
      (channelLoop gw fuel hs seen total).2.2 = true →
      newTabsOf (channelLoop gw fuel hs seen total).1 =
        ((dedupStripAux seen hs).filter (channelOkB gw)).map displayHandle := by
  intro hs
  induction hs with
  | nil => intro seen total _; rfl
  | cons h rest ih =>
    intro seen total hdone
    by_cases hskip : pyStrip h = "" ∨ pyStrip h ∈ seen
    · rw [channelLoop_eq_skip hskip] at hdone ⊢
      rw [ih seen total hdone,
        show dedupStripAux seen (h :: rest) = dedupStripAux seen rest from by
          simp only [dedupStripAux, if_pos hskip]]
    · have hdedup : dedupStripAux seen (h :: rest) =
          pyStrip h :: dedupStripAux (pyStrip h :: seen) rest := by
        simp only [dedupStripAux, if_neg hskip]
      cases hout : (processChannel gw fuel total (pyStrip h)).2.2.2 with
      | none =>
        rw [channelLoop_eq_fuelOut hskip hout] at hdone
        simp at hdone
      | some out =>
        cases out with
        | ok u =>
          cases u
          rw [channelLoop_eq_ok hskip hout] at hdone ⊢
          show newTabsOf ((Event.statusUpdate _ :: (processChannel gw fuel total
            (pyStrip h)).1) ++ _) = _
          rw [newTabsOf_append, newTabsOf_cons_status, processChannel_newTabs,
            ih _ _ hdone, hdedup, List.filter_cons]
          cases hok : channelOkB gw (pyStrip h) <;> simp [hok]
        | error err =>
          rw [channelLoop_eq_error hskip hout] at hdone ⊢
          show newTabsOf ((Event.statusUpdate _ :: (processChannel gw fuel total
            (pyStrip h)).1) ++ _) = _
          rw [newTabsOf_append, newTabsOf_cons_status, processChannel_newTabs,
            newTabsOf_cons_errEvent, ih _ _ hdone, hdedup, List.filter_cons]
          cases hok : channelOkB gw (pyStrip h) <;> simp [hok]

/-- If the per-channel body emitted any row, its very first event was the
channel's `new_tab` announcement. -/
theorem processChannel_row_head (gw : Gateway) (fuel total : Nat)
    (ch dh2 t u : String)
    (h : Event.addRow dh2 t u ∈ (processChannel gw fuel total ch).1) :
    (processChannel gw fuel total ch).1.head? =
      some (Event.newTab (displayHandle ch)) := by
  cases hg : get_channel_id gw ch with
  | error err => rw [processChannel_eq_resolveFail fuel total hg] at h; simp at h
  | ok cid =>
    cases hc : channelsRes gw cid with
    | error err => rw [processChannel_eq_detailsFail fuel total hg hc] at h; simp at h
    | ok copt =>
      cases copt with
      | none => rw [processChannel_eq_detailsNone fuel total hg hc] at h; simp at h
      | some uploadsId =>
        cases hp : playlistRes gw uploadsId none with
        | error err =>
          rw [processChannel_eq_firstPageFail fuel total hg hc hp] at h; simp at h
        | ok resp =>
          cases hitems : resp.items with
          | none =>
            rw [processChannel_eq_missingItems fuel total hg hc hp hitems] at h
            simp at h
          | some ids0 =>
            rw [processChannel_eq_paginate fuel total hg hc hp hitems]
            rfl

/-- A gateway where handle `@A` resolves fine (channel id and uploads
playlist id are both obtained) but every playlist-page fetch fails with a
transient HTTP 500. -/
def gwC4 : Gateway where
  resolveHandle := fun h => if h = "@A" then .ok (some "cidA") else .ok none
  channelsApi := fun _ => .ok (some "upA")
  playlistItemsApi := fun _ _ => .error (.httpError 500)
  videosApi := fun _ => .ok (some [])

/-- C4 fails as stated: handle `@A` passes resolution (both resolver
calls succeed, yielding the uploads playlist id), yet the completed run
announces no channel, because `new_tab` is only emitted after the first
playlist-page fetch also succeeds. -/
theorem C4_counterexample :
    get_channel_id gwC4 "@A" = .ok "cidA" ∧
    channelsRes gwC4 "cidA" = .ok (some "upA") ∧
    newTabsOf (runScraper gwC4 "k" ["@A"] 5).1 = [] ∧
    (runScraper gwC4 "k" ["@A"] 5).2.2 = true :=
  ⟨rfl, rfl, rfl, rfl⟩

/-- C4 (amended): in a completed run the channels announced via `new_tab`
are exactly the deduplicated stripped handles for which resolution,
channel details AND the first playlist-page fetch succeed, in input
order and in display form; and any channel that emits a row was
announced before its first row (its event stream starts with its
`new_tab`). -/
theorem C4_announced_channels :
    (∀ (gw : Gateway) (apiKey : String) (hs : List String) (fuel : Nat),
      apiKey ≠ "" → hs ≠ [] → (runScraper gw apiKey hs fuel).2.2 = true →
      newTabsOf (runScraper gw apiKey hs fuel).1 =
        ((dedupStrip hs).filter (channelOkB gw)).map displayHandle) ∧
    (∀ (gw : Gateway) (fuel total : Nat) (ch dh2 t u : String),
      Event.addRow dh2 t u ∈ (processChannel gw fuel total ch).1 →
      (processChannel gw fuel total ch).1.head? =
        some (Event.newTab (displayHandle ch))) := by
  constructor
  · intro gw apiKey hs fuel hk hh hdone
    rw [runScraper_eq hk hh] at hdone ⊢
    show newTabsOf ((Event.statusUpdate "Starting..." :: (channelLoop gw fuel hs [] 0).1)
      ++ _) = _
    rw [newTabsOf_append, newTabsOf_cons_status, channelLoop_newTabs gw fuel hs [] 0 hdone,
      if_pos (show (channelLoop gw fuel hs [] 0).2.2 = true from hdone)]
    simp [newTabsOf, dedupStrip]
  · exact processChannel_row_head

/-- Witness for C4 (amended) on a concrete two-channel run. -/
theorem C4_witness :
    newTabsOf (runScraper gwC3 "k" ["@A", "@B"] 5).1 = ["A", "B"] := by
  have h := C4_announced_channels.1 gwC3 "k" ["@A", "@B"] 5 (by decide) (by decide) (by rfl)
  rw [h]
  rfl

/-- Witness for C10 at a concrete emitted row. -/
theorem C10_witness :
    ∃ ids items v, videosRes gwC3 ids = .ok (some items) ∧ v ∈ items ∧
      "Ta1" = v.title ∧
      "https://www.youtube.com/watch?v=a1" = "https://www.youtube.com/watch?v=" ++ v.id :=
  C10_row_fields gwC3 "k" ["@A", "@B"] 5 "A" "Ta1"
    "https://www.youtube.com/watch?v=a1" (by decide)

/- Branch equations for `pageLoop`. -/

theorem pageLoop_eq_noItems {gw : Gateway} {uploadsId dh ch : String} {total : Nat}
    {fuel : Nat} {resp : PageResponse} {p : Nat} (hitems : resp.items = none) :
    pageLoop gw uploadsId dh ch total (fuel + 1) resp p =
      ([Event.statusUpdate ("Processing page for " ++ ch ++ "...")], [],
        some (.error (.exception "'items'"))) := by
  simp only [pageLoop, hitems]

theorem pageLoop_eq_videosFail {gw : Gateway} {uploadsId dh ch : String} {total : Nat}
    {fuel : Nat} {resp : PageResponse} {p : Nat} {ids : List String} {e : PyErr}
    (hitems : resp.items = some ids) (hv : videosRes gw ids = .error e) :
    pageLoop gw uploadsId dh ch total (fuel + 1) resp p =
      ([Event.statusUpdate ("Processing page for " ++ ch ++ "...")],
        [.videosList ids], some (.error e)) := by
  simp only [pageLoop, hitems, hv]

theorem pageLoop_eq_videosNone {gw : Gateway} {uploadsId dh ch : String} {total : Nat}
    {fuel : Nat} {resp : PageResponse} {p : Nat} {ids : List String}
    (hitems : resp.items = some ids) (hv : videosRes gw ids = .ok none) :
    pageLoop gw uploadsId dh ch total (fuel + 1) resp p =
      ([Event.statusUpdate ("Processing page for " ++ ch ++ "...")],
        [.videosList ids],
        some (.error (.valueError ("Failed to retrieve video data for " ++ ch)))) := by
  simp only [pageLoop, hitems, hv]

theorem pageLoop_eq_lastPage {gw : Gateway} {uploadsId dh ch : String} {total : Nat}
    {fuel : Nat} {resp : PageResponse} {p : Nat} {ids : List String}
    {vitems : List VideoItem} (hitems : resp.items = some ids)
    (hv : videosRes gw ids = .ok (some vitems)) (htok : resp.nextPageToken = none) :
    pageLoop gw uploadsId dh ch total (fuel + 1) resp p =
      (Event.statusUpdate ("Processing page for " ++ ch ++ "...") ::
        emitRows dh total p vitems, [.videosList ids],
        some (.ok (p + vitems.length))) := by
  simp only [pageLoop, hitems, hv, htok]

theorem pageLoop_eq_nextFail {gw : Gateway} {uploadsId dh ch : String} {total : Nat}
    {fuel : Nat} {resp : PageResponse} {p : Nat} {ids : List String}
    {vitems : List VideoItem} {tok : String} {e : PyErr}
    (hitems : resp.items = some ids) (hv : videosRes gw ids = .ok (some vitems))
    (htok : resp.nextPageToken = some tok)
    (hpl : playlistRes gw uploadsId (some tok) = .error e) :
    pageLoop gw uploadsId dh ch total (fuel + 1) resp p =
      (Event.statusUpdate ("Processing page for " ++ ch ++ "...") ::
        emitRows dh total p vitems,
        [.videosList ids, .playlistItems uploadsId 50 (some tok)],
        some (.error e)) := by
  simp only [pageLoop, hitems, hv, htok, hpl]

theorem pageLoop_eq_next {gw : Gateway} {uploadsId dh ch : String} {total : Nat}
    {fuel : Nat} {resp : PageResponse} {p : Nat} {ids : List String}
    {vitems : List VideoItem} {tok : String} {resp2 : PageResponse}
    (hitems : resp.items = some ids) (hv : videosRes gw ids = .ok (some vitems))
    (htok : resp.nextPageToken = some tok)
    (hpl : playlistRes gw uploadsId (some tok) = .ok resp2) :
    pageLoop gw uploadsId dh ch total (fuel + 1) resp p =
      (Event.statusUpdate ("Processing page for " ++ ch ++ "...") ::
        emitRows dh total p vitems ++
          (pageLoop gw uploadsId dh ch total fuel resp2 (p + vitems.length)).1,
        .videosList ids :: .playlistItems uploadsId 50 (some tok) ::
          (pageLoop gw uploadsId dh ch total fuel resp2 (p + vitems.length)).2.1,
        (pageLoop gw uploadsId dh ch total fuel resp2 (p + vitems.length)).2.2) := by
  simp only [pageLoop, hitems, hv, htok, hpl]

/-- Every remote call issued by the pagination loop is a videos batch or
a playlist-page request on the channel's uploads playlist with page size
50 and an explicit continuation token. -/
theorem pageLoop_calls_mem (gw : Gateway) (uploadsId dh ch : String) (total : Nat) :
    ∀ (fuel : Nat) (resp : PageResponse) (p : Nat) (c : ApiCall),
      c ∈ (pageLoop gw uploadsId dh ch total fuel resp p).2.1 →
      (∃ ids, c = .videosList ids) ∨
        (∃ tok, c = .playlistItems uploadsId 50 (some tok)) := by
  intro fuel
  induction fuel with
  | zero => intro resp p c hc; simp [pageLoop] at hc
  | succ fuel ih =>
    intro resp p c hc
    cases hitems : resp.items with
    | none => rw [pageLoop_eq_noItems hitems] at hc; simp at hc
    | some ids =>
      cases hv : videosRes gw ids with
      | error e =>
        rw [pageLoop_eq_videosFail hitems hv] at hc
        simp at hc
        exact Or.inl ⟨ids, hc⟩
      | ok vopt =>
        cases vopt with
        | none =>
          rw [pageLoop_eq_videosNone hitems hv] at hc
          simp at hc
          exact Or.inl ⟨ids, hc⟩
        | some vitems =>
          cases htok : resp.nextPageToken with
          | none =>
            rw [pageLoop_eq_lastPage hitems hv htok] at hc
            simp at hc
            exact Or.inl ⟨ids, hc⟩
          | some tok =>
            cases hpl : playlistRes gw uploadsId (some tok) with
            | error e =>
              rw [pageLoop_eq_nextFail hitems hv htok hpl] at hc
              simp at hc
              rcases hc with hc | hc
              · exact Or.inl ⟨ids, hc⟩
              · exact Or.inr ⟨tok, hc⟩
            | ok resp2 =>
              rw [pageLoop_eq_next hitems hv htok hpl] at hc
              rcases List.mem_cons.1 hc with hc | hc
              · exact Or.inl ⟨ids, hc⟩
              · rcases List.mem_cons.1 hc with hc | hc
                · exact Or.inr ⟨tok, hc⟩
                · exact ih resp2 (p + vitems.length) c hc

/-- The `channels().list(forHandle=...)` resolution requests of a call
trace, in order. -/
def resolveCallsOf (calls : List ApiCall) : List String :=
  calls.filterMap (fun c => match c with | .channelsForHandle h => some h | _ => none)

theorem resolveCallsOf_append (l₁ l₂ : List ApiCall) :
    resolveCallsOf (l₁ ++ l₂) = resolveCallsOf l₁ ++ resolveCallsOf l₂ :=
  List.filterMap_append l₁ l₂ _

theorem resolveCallsOf_eq_nil {cs : List ApiCall}
    (h : ∀ c ∈ cs, ∀ s, c ≠ ApiCall.channelsForHandle s) : resolveCallsOf cs = [] := by
  induction cs with
  | nil => rfl
  | cons c rest ih =>
    have hrest := ih (fun c' hc' s => h c' (List.mem_cons_of_mem c hc') s)
    cases c with
    | channelsForHandle s => exact absurd rfl (h _ (List.mem_cons_self _ _) s)
    | channelsById s => exact hrest
    | playlistItems a b d => exact hrest
    | videosList ids => exact hrest

/-- The pagination loop issues no handle-resolution calls. -/
theorem pageLoop_no_resolve (gw : Gateway) (uploadsId dh ch : String)
    (total fuel : Nat) (resp : PageResponse) (p : Nat) :
    resolveCallsOf (pageLoop gw uploadsId dh ch total fuel resp p).2.1 = [] := by
  refine resolveCallsOf_eq_nil (fun c hc s => ?_)
  rcases pageLoop_calls_mem gw uploadsId dh ch total fuel resp p c hc with
    ⟨ids, h⟩ | ⟨tok, h⟩ <;> subst h <;> simp

/-- The per-channel body issues exactly one handle-resolution call — for
its own handle — whatever the outcome. -/
theorem processChannel_resolveCalls (gw : Gateway) (fuel total : Nat) (ch : String) :
    resolveCallsOf (processChannel gw fuel total ch).2.1 = [ch] := by
  cases hg : get_channel_id gw ch with
  | error err => rw [processChannel_eq_resolveFail fuel total hg]; rfl
  | ok cid =>
    cases hc : channelsRes gw cid with
    | error err => rw [processChannel_eq_detailsFail fuel total hg hc]; rfl
    | ok copt =>
      cases copt with
      | none => rw [processChannel_eq_detailsNone fuel total hg hc]; rfl
      | some uploadsId =>
        cases hp : playlistRes gw uploadsId none with
        | error err => rw [processChannel_eq_firstPageFail fuel total hg hc hp]; rfl
        | ok resp =>
          cases hitems : resp.items with
          | none => rw [processChannel_eq_missingItems fuel total hg hc hp hitems]; rfl
          | some ids0 =>
            rw [processChannel_eq_paginate fuel total hg hc hp hitems]
            show resolveCallsOf (ApiCall.channelsForHandle ch :: _) = [ch]
            show ch :: resolveCallsOf (ApiCall.channelsById cid ::
              ApiCall.playlistItems uploadsId 50 none ::
              (pageLoop gw uploadsId (displayHandle ch) ch (total + resp.totalResults)
                fuel resp 0).2.1) = [ch]
            show ch :: resolveCallsOf (pageLoop gw uploadsId (displayHandle ch) ch
              (total + resp.totalResults) fuel resp 0).2.1 = [ch]
            rw [pageLoop_no_resolve]

/-- Under completion the channel loop resolves exactly the deduplicated
stripped handles, in input order. -/
theorem channelLoop_resolveCalls (gw : Gateway) (fuel : Nat) :
    ∀ (hs seen : List String) (total : Nat),
      (channelLoop gw fuel hs seen total).2.2 = true →
      resolveCallsOf (channelLoop gw fuel hs seen total).2.1 =
        dedupStripAux seen hs := by
  intro hs
  induction hs with
  | nil => intro seen total _; rfl
  | cons h rest ih =>
    intro seen total hdone
    by_cases hskip : pyStrip h = "" ∨ pyStrip h ∈ seen
    · rw [channelLoop_eq_skip hskip] at hdone ⊢
      rw [ih seen total hdone,
        show dedupStripAux seen (h :: rest) = dedupStripAux seen rest from by
          simp only [dedupStripAux, if_pos hskip]]
    · have hdedup : dedupStripAux seen (h :: rest) =
          pyStrip h :: dedupStripAux (pyStrip h :: seen) rest := by
        simp only [dedupStripAux, if_neg hskip]
      cases hout : (processChannel gw fuel total (pyStrip h)).2.2.2 with
      | none =>
        rw [channelLoop_eq_fuelOut hskip hout] at hdone
        simp at hdone
      | some out =>
        cases out with
        | ok u =>
          cases u
          rw [channelLoop_eq_ok hskip hout] at hdone ⊢
          rw [resolveCallsOf_append, processChannel_resolveCalls, ih _ _ hdone, hdedup]
          rfl
        | error err =>
          rw [channelLoop_eq_error hskip hout] at hdone ⊢
          rw [resolveCallsOf_append, processChannel_resolveCalls, ih _ _ hdone, hdedup]
          rfl

/-- The deduplicated stripped handle list never repeats a handle and
never contains a handle already marked as seen. -/
theorem dedupStripAux_nodup :
    ∀ (hs seen : List String),
      (dedupStripAux seen hs).Nodup ∧ ∀ x ∈ dedupStripAux seen hs, x ∉ seen := by
  intro hs
  induction hs with
  | nil => intro seen; exact ⟨List.nodup_nil, by simp [dedupStripAux]⟩
  | cons h rest ih =>
    intro seen
    by_cases hskip : pyStrip h = "" ∨ pyStrip h ∈ seen
    · rw [show dedupStripAux seen (h :: rest) = dedupStripAux seen rest from by
        simp only [dedupStripAux, if_pos hskip]]
      exact ih seen
    · rw [show dedupStripAux seen (h :: rest) =
          pyStrip h :: dedupStripAux (pyStrip h :: seen) rest from by
        simp only [dedupStripAux, if_neg hskip]]
      obtain ⟨hnd, hnotin⟩ := ih (pyStrip h :: seen)
      refine ⟨List.nodup_cons.2 ⟨fun hmem => ?_, hnd⟩, fun x hx => ?_⟩
      · exact hnotin (pyStrip h) hmem (List.mem_cons_self _ _)
      · rcases List.mem_cons.1 hx with hx | hx
        · subst hx
          intro hmem
          exact hskip (Or.inr hmem)
        · intro hmem
          exact hnotin x hx (List.mem_cons_of_mem _ hmem)

theorem dedupStripAux_ne_empty :
    ∀ (hs seen : List String) (x : String), x ∈ dedupStripAux seen hs → x ≠ "" := by
  intro hs
  induction hs with
  | nil => intro seen x hx; simp [dedupStripAux] at hx
  | cons h rest ih =>
    intro seen x hx
    by_cases hskip : pyStrip h = "" ∨ pyStrip h ∈ seen
    · rw [show dedupStripAux seen (h :: rest) = dedupStripAux seen rest from by
        simp only [dedupStripAux, if_pos hskip]] at hx
      exact ih seen x hx
    · rw [show dedupStripAux seen (h :: rest) =
          pyStrip h :: dedupStripAux (pyStrip h :: seen) rest from by
        simp only [dedupStripAux, if_neg hskip]] at hx
      rcases List.mem_cons.1 hx with hx | hx
      · subst hx
        exact fun he => hskip (Or.inl he)
      · exact ih (pyStrip h :: seen) x hx

/-- A gateway where both `@A` and `A` resolve to the same channel with a
single uploaded video `v1` (the YouTube `forHandle` parameter accepts a
handle with or without the `@` sigil). -/
def gwC6 : Gateway where
  resolveHandle := fun h => if h = "@A" ∨ h = "A" then .ok (some "cidA") else .ok none
  channelsApi := fun _ => .ok (some "upA")
  playlistItemsApi := fun _ _ => .ok ⟨1, some ["v1"], none⟩
  videosApi := fun ids => .ok (some (ids.map (fun i => ⟨i, "T" ++ i⟩)))

/-- C6 fails as stated: `@A` and `A` are distinct after stripping, so
both are processed, but they share the display handle `A` and emit the
identical `(channelHandle, videoId)` row twice in one run. -/
theorem C6_counterexample :
    ((runScraper gwC6 "k" ["@A", "A"] 5).1.filter
      (fun e => decide (e = Event.addRow "A" "Tv1" (videoUrl "v1")))).length = 2 :=
  rfl

/-- C6 (amended): empty and duplicate handles (after stripping) are
skipped with the first occurrence winning — a completed run issues
exactly one handle-resolution call per distinct non-empty stripped
handle, in input order, with no repetition.  Uniqueness of
`(channelHandle, videoId)` pairs does not follow, because two distinct
stripped handles (`@A` and `A`) can share a display handle. -/
theorem C6_per_handle_once (gw : Gateway) (apiKey : String) (hs : List String)
    (fuel : Nat) (hk : apiKey ≠ "") (hh : hs ≠ [])
    (hdone : (runScraper gw apiKey hs fuel).2.2 = true) :
    resolveCallsOf (runScraper gw apiKey hs fuel).2.1 = dedupStrip hs ∧
    (dedupStrip hs).Nodup ∧ ∀ x ∈ dedupStrip hs, x ≠ "" := by
  rw [runScraper_eq hk hh] at hdone ⊢
  exact ⟨channelLoop_resolveCalls gw fuel hs [] 0 hdone,
    (dedupStripAux_nodup hs []).1, dedupStripAux_ne_empty hs []⟩

/-- Witness for C6 (amended): whitespace-duplicate and empty handles are
dropped, each surviving handle resolved once. -/
theorem C6_witness :
    resolveCallsOf (runScraper gwC3 "k" ["@A", " @A ", "", "@B"] 5).2.1 =
      ["@A", "@B"] := by
  have h := C6_per_handle_once gwC3 "k" ["@A", " @A ", "", "@B"] 5
    (by decide) (by decide) (by rfl)
  rw [h.1]
  rfl

/-- The `pageToken` arguments of the playlist-page requests of a call
trace, in order. -/
def playlistToksOf (calls : List ApiCall) : List (Option String) :=
  calls.filterMap (fun c => match c with | .playlistItems _ _ t => some t | _ => none)

/-- Spec-side cursor chase (from the spec's words): starting from a page
response, follow each `nextPageToken` through the decorated page fetch,
collecting the tokens requested, until a response omits the token. -/
def chaseTokens (gw : Gateway) (uploadsId : String) : Nat → PageResponse → List String
  | 0, _ => []
  | fuel + 1, resp =>
    match resp.nextPageToken with
    | none => []
    | some t =>
      match playlistRes gw uploadsId (some t) with
      | .error _ => [t]
      | .ok r2 => t :: chaseTokens gw uploadsId fuel r2

/-- Spec-side termination check (from the spec's words): the cursor chase
reaches, within the fuel bound, a response that omits the continuation
token. -/
def chaseEndsNone (gw : Gateway) (uploadsId : String) : Nat → PageResponse → Bool
  | 0, resp => resp.nextPageToken.isNone
  | fuel + 1, resp =>
    match resp.nextPageToken with
    | none => true
    | some t =>
      match playlistRes gw uploadsId (some t) with
      | .error _ => false
      | .ok r2 => chaseEndsNone gw uploadsId fuel r2

/-- On a normally-terminating pagination loop, the requested tokens are
exactly the spec-side cursor chase, and the chase ends because a
response omits the cursor. -/
theorem pageLoop_tokens (gw : Gateway) (uploadsId dh ch : String) (total : Nat) :
    ∀ (fuel : Nat) (resp : PageResponse) (p n : Nat),
      (pageLoop gw uploadsId dh ch total fuel resp p).2.2 = some (.ok n) →
      playlistToksOf (pageLoop gw uploadsId dh ch total fuel resp p).2.1 =
        (chaseTokens gw uploadsId fuel resp).map some ∧
      chaseEndsNone gw uploadsId fuel resp = true := by
  intro fuel
  induction fuel with
  | zero => intro resp p n hok; simp [pageLoop] at hok
  | succ fuel ih =>
    intro resp p n hok
    cases hitems : resp.items with
    | none => rw [pageLoop_eq_noItems hitems] at hok; simp at hok
    | some ids =>
      cases hv : videosRes gw ids with
      | error e => rw [pageLoop_eq_videosFail hitems hv] at hok; simp at hok
      | ok vopt =>
        cases vopt with
        | none => rw [pageLoop_eq_videosNone hitems hv] at hok; simp at hok
        | some vitems =>
          cases htok : resp.nextPageToken with
          | none =>
            rw [pageLoop_eq_lastPage hitems hv htok]
            constructor
            · rw [show chaseTokens gw uploadsId (fuel + 1) resp = [] from by
                simp only [chaseTokens, htok]]
              rfl
            · rw [show chaseEndsNone gw uploadsId (fuel + 1) resp = true from by
                simp only [chaseEndsNone, htok]]
          | some tok =>
            cases hpl : playlistRes gw uploadsId (some tok) with
            | error e => rw [pageLoop_eq_nextFail hitems hv htok hpl] at hok; simp at hok
            | ok resp2 =>
              rw [pageLoop_eq_next hitems hv htok hpl] at hok ⊢
              obtain ⟨htoks, hend⟩ := ih resp2 (p + vitems.length) n hok
              constructor
              · show playlistToksOf (ApiCall.playlistItems uploadsId 50 (some tok) ::
                  (pageLoop gw uploadsId dh ch total fuel resp2
                    (p + vitems.length)).2.1) = _
                show some tok :: playlistToksOf (pageLoop gw uploadsId dh ch total fuel
                  resp2 (p + vitems.length)).2.1 = _
                rw [htoks,
                  show chaseTokens gw uploadsId (fuel + 1) resp =
                    tok :: chaseTokens gw uploadsId fuel resp2 from by
                      simp only [chaseTokens, htok, hpl]]
                rfl
              · rw [show chaseEndsNone gw uploadsId (fuel + 1) resp =
                  chaseEndsNone gw uploadsId fuel resp2 from by
                    simp only [chaseEndsNone, htok, hpl]]
                exact hend

/-- Every remote call of the per-channel body that is a playlist-page
request uses page size 50; and the body's first playlist request, when
one exists, carries no continuation token. -/
theorem processChannel_calls50 (gw : Gateway) (fuel total : Nat) (ch : String) :
    (∀ c ∈ (processChannel gw fuel total ch).2.1,
      ∀ pid m tok, c = ApiCall.playlistItems pid m tok → m = 50) ∧
    (∀ tokOpt, (playlistToksOf (processChannel gw fuel total ch).2.1).head? =
      some tokOpt → tokOpt = none) := by
  cases hg : get_channel_id gw ch with
  | error err =>
    rw [processChannel_eq_resolveFail fuel total hg]
    exact ⟨by intro c hc pid m tok hceq; simp at hc; subst hc; simp at hceq,
      by intro tokOpt h; simp [playlistToksOf] at h⟩
  | ok cid =>
    cases hc : channelsRes gw cid with
    | error err =>
      rw [processChannel_eq_detailsFail fuel total hg hc]
      refine ⟨fun c hc2 pid m tok hceq => ?_, fun tokOpt h => ?_⟩
      · rcases List.mem_cons.1 hc2 with h2 | h2
        · subst h2; simp at hceq
        · simp at h2; subst h2; simp at hceq
      · simp [playlistToksOf] at h
    | ok copt =>
      cases copt with
      | none =>
        rw [processChannel_eq_detailsNone fuel total hg hc]
        refine ⟨fun c hc2 pid m tok hceq => ?_, fun tokOpt h => ?_⟩
        · rcases List.mem_cons.1 hc2 with h2 | h2
          · subst h2; simp at hceq
          · simp at h2; subst h2; simp at hceq
        · simp [playlistToksOf] at h
      | some uploadsId =>
        cases hp : playlistRes gw uploadsId none with
        | error err =>
          rw [processChannel_eq_firstPageFail fuel total hg hc hp]
          refine ⟨fun c hc2 pid m tok hceq => ?_, fun tokOpt h => ?_⟩
          · simp at hc2
            rcases hc2 with h2 | h2 | h2 <;> subst h2 <;> simp at hceq ⊢
            exact hceq.2.1.symm
          · simp [playlistToksOf] at h
            exact h.symm
        | ok resp =>
          cases hitems : resp.items with
          | none =>
            rw [processChannel_eq_missingItems fuel total hg hc hp hitems]
            refine ⟨fun c hc2 pid m tok hceq => ?_, fun tokOpt h => ?_⟩
            · simp at hc2
              rcases hc2 with h2 | h2 | h2 <;> subst h2 <;> simp at hceq ⊢
              exact hceq.2.1.symm
            · simp [playlistToksOf] at h
              exact h.symm
          | some ids0 =>
            rw [processChannel_eq_paginate fuel total hg hc hp hitems]
            refine ⟨fun c hc2 pid m tok hceq => ?_, fun tokOpt h => ?_⟩
            · rcases List.mem_cons.1 hc2 with h2 | h2
              · subst h2; simp at hceq
              rcases List.mem_cons.1 h2 with h3 | h3
              · subst h3; simp at hceq
              rcases List.mem_cons.1 h3 with h4 | h4
              · subst h4
                simp at hceq
                exact hceq.2.1.symm
              · subst hceq
                rcases pageLoop_calls_mem gw uploadsId (displayHandle ch) ch
                  (total + resp.totalResults) fuel resp 0 _ h4 with ⟨ids, hx⟩ | ⟨t2, hx⟩
                · simp at hx
                · simp at hx
                  exact hx.2.1
            · have h2 : some (none : Option String) = some tokOpt := h
              exact (Option.some_inj.mp h2).symm

/-- Every remote call of the channel loop belongs to some per-channel
body execution. -/
theorem channelLoop_calls_mem (gw : Gateway) (fuel : Nat) :
    ∀ (hs seen : List String) (total : Nat) (c : ApiCall),
      c ∈ (channelLoop gw fuel hs seen total).2.1 →
      ∃ total2 ch, c ∈ (processChannel gw fuel total2 ch).2.1 := by
  intro hs
  induction hs with
  | nil => intro seen total c hc; simp [channelLoop] at hc
  | cons h rest ih =>
    intro seen total c hc
    by_cases hskip : pyStrip h = "" ∨ pyStrip h ∈ seen
    · rw [channelLoop_eq_skip hskip] at hc
      exact ih seen total c hc
    · cases hout : (processChannel gw fuel total (pyStrip h)).2.2.2 with
      | none =>
        rw [channelLoop_eq_fuelOut hskip hout] at hc
        exact ⟨total, pyStrip h, hc⟩
      | some out =>
        cases out with
        | ok u =>
          cases u
          rw [channelLoop_eq_ok hskip hout] at hc
          rcases List.mem_append.1 hc with hc | hc
          · exact ⟨total, pyStrip h, hc⟩
          · exact ih _ _ c hc
        | error err =>
          rw [channelLoop_eq_error hskip hout] at hc
          rcases List.mem_append.1 hc with hc | hc
          · exact ⟨total, pyStrip h, hc⟩
          · exact ih _ _ c hc

/-- C7: every playlist-page request of a run uses `maxResults=50`; a
channel's first playlist request (when any) carries no continuation
token; and in a normally-terminating pagination loop, each subsequent
request carries exactly the `nextPageToken` of the preceding response
(the requested tokens equal the spec-side cursor chase), the loop
stopping precisely when a response omits the cursor. -/
theorem C7_pagination :
    (∀ (gw : Gateway) (apiKey : String) (hs : List String) (fuel : Nat)
        (c : ApiCall), c ∈ (runScraper gw apiKey hs fuel).2.1 →
        ∀ pid m tok, c = ApiCall.playlistItems pid m tok → m = 50) ∧
    (∀ (gw : Gateway) (fuel total : Nat) (ch : String) (tokOpt : Option String),
        (playlistToksOf (processChannel gw fuel total ch).2.1).head? = some tokOpt →
        tokOpt = none) ∧
    (∀ (gw : Gateway) (uploadsId dh ch : String) (total fuel : Nat)
        (resp : PageResponse) (p n : Nat),
        (pageLoop gw uploadsId dh ch total fuel resp p).2.2 = some (.ok n) →
        playlistToksOf (pageLoop gw uploadsId dh ch total fuel resp p).2.1 =
          (chaseTokens gw uploadsId fuel resp).map some ∧
        chaseEndsNone gw uploadsId fuel resp = true) := by
  refine ⟨?_, ?_, ?_⟩
  · intro gw apiKey hs fuel c hc pid m tok hceq
    have hc2 : c ∈ (channelLoop gw fuel hs [] 0).2.1 := by
      by_cases hk : apiKey = ""
      · rw [show (runScraper gw apiKey hs fuel).2.1 = [] from by
          simp only [runScraper, if_pos hk]] at hc
        simp at hc
      · by_cases hh : hs = []
        · rw [show (runScraper gw apiKey hs fuel).2.1 = [] from by
            simp only [runScraper, if_neg hk, if_pos hh]] at hc
          simp at hc
        · rw [runScraper_eq hk hh] at hc
          exact hc
    obtain ⟨total2, ch, hpc⟩ := channelLoop_calls_mem gw fuel hs [] 0 c hc2
    exact (processChannel_calls50 gw fuel total2 ch).1 c hpc pid m tok hceq
  · intro gw fuel total ch tokOpt h
    exact (processChannel_calls50 gw fuel total ch).2 tokOpt h
  · intro gw uploadsId dh ch total fuel resp p n hok
    exact pageLoop_tokens gw uploadsId dh ch total fuel resp p n hok

/-- A gateway with a single two-page playlist: the first page carries
continuation token `t2`, the second page omits the token. -/
def gwC7 : Gateway where
  resolveHandle := fun _ => .ok (some "cid")
  channelsApi := fun _ => .ok (some "up")
  playlistItemsApi := fun _ tok =>
    match tok with
    | none => .ok ⟨2, some ["v1"], some "t2"⟩
    | some t => if t = "t2" then .ok ⟨2, some ["v2"], none⟩ else .error (.httpError 404)
  videosApi := fun ids => .ok (some (ids.map (fun i => ⟨i, "T" ++ i⟩)))

/-- Witness for C7 on the concrete two-page playlist. -/
theorem C7_witness :
    playlistToksOf (pageLoop gwC7 "up" "A" "@A" 2 5 ⟨2, some ["v1"], some "t2"⟩ 0).2.1 =
      (chaseTokens gwC7 "up" 5 ⟨2, some ["v1"], some "t2"⟩).map some ∧
    chaseEndsNone gwC7 "up" 5 ⟨2, some ["v1"], some "t2"⟩ = true :=
  C7_pagination.2.2 gwC7 "up" "A" "@A" 2 5 ⟨2, some ["v1"], some "t2"⟩ 0 2 (by rfl)

/-- The id batches of the `videos().list` requests of a call trace. -/
def videosCallsOf (calls : List ApiCall) : List (List String) :=
  calls.filterMap (fun c => match c with | .videosList ids => some ids | _ => none)

/-- Spec-side page sequence (from the spec's words): the page responses
consumed by one channel, starting from the first page and following the
continuation cursor while fetches succeed. -/
def pagesFrom (gw : Gateway) (uploadsId : String) : Nat → PageResponse → List PageResponse
  | 0, _ => []
  | fuel + 1, resp =>
    resp ::
      (match resp.nextPageToken with
       | none => []
       | some t =>
         match playlistRes gw uploadsId (some t) with
         | .error _ => []
         | .ok r2 => pagesFrom gw uploadsId fuel r2)

/-- The row event built from one item of a videos response. -/
def rowOf (dh : String) (v : VideoItem) : Event := .addRow dh v.title (videoUrl v.id)

/-- The rows one page contributes: one per item of the metadata response
for that page's id batch, in response order (an id missing from the
response simply contributes no row). -/
def rowsOfPage (gw : Gateway) (dh : String) (pg : PageResponse) : List Event :=
  match pg.items with
  | none => []
  | some ids =>
    match videosRes gw ids with
    | .ok (some l) => l.map (rowOf dh)
    | _ => []

theorem addRowsOf_emitRows_eq (dh : String) (total : Nat) :
    ∀ (vitems : List VideoItem) (p : Nat),
      addRowsOf (emitRows dh total p vitems) = vitems.map (rowOf dh) := by
  intro vitems
  induction vitems with
  | nil => intro p; rfl
  | cons v rest ih =>
    intro p
    by_cases ht : 0 < total <;>
      simp only [emitRows, addRowsOf, List.filter_cons, ht, if_pos, if_neg,
        List.filter_append, List.map_cons] <;>
      simpa [addRowsOf, rowOf, videoUrl] using ih (p + 1)

/-- Fuel sufficiency and page well-formedness (spec side): every page in
the chase has an `items` list and the chase ends within the fuel bound. -/
def goodPages (gw : Gateway) (uploadsId : String) : Nat → PageResponse → Bool
  | 0, _ => false
  | fuel + 1, resp =>
    resp.items.isSome &&
      (match resp.nextPageToken with
       | none => true
       | some t =>
         match playlistRes gw uploadsId (some t) with
         | .error _ => false
         | .ok r2 => goodPages gw uploadsId fuel r2)

/-- C8 part 1 engine: on a normally-terminating loop, the videos requests
are exactly one per consumed page, each covering that whole page's id
batch, and the emitted rows are exactly the per-page response items in
response order, concatenated in page order. -/
theorem pageLoop_batches (gw : Gateway) (uploadsId dh ch : String) (total : Nat) :
    ∀ (fuel : Nat) (resp : PageResponse) (p n : Nat),
      (pageLoop gw uploadsId dh ch total fuel resp p).2.2 = some (.ok n) →
      videosCallsOf (pageLoop gw uploadsId dh ch total fuel resp p).2.1 =
        (pagesFrom gw uploadsId fuel resp).map (fun pg => pg.items.getD []) ∧
      addRowsOf (pageLoop gw uploadsId dh ch total fuel resp p).1 =
        ((pagesFrom gw uploadsId fuel resp).map (rowsOfPage gw dh)).flatten := by
  intro fuel
  induction fuel with
  | zero => intro resp p n hok; simp [pageLoop] at hok
  | succ fuel ih =>
    intro resp p n hok
    cases hitems : resp.items with
    | none => rw [pageLoop_eq_noItems hitems] at hok; simp at hok
    | some ids =>
      cases hv : videosRes gw ids with
      | error e => rw [pageLoop_eq_videosFail hitems hv] at hok; simp at hok
      | ok vopt =>
        cases vopt with
        | none => rw [pageLoop_eq_videosNone hitems hv] at hok; simp at hok
        | some vitems =>
          cases htok : resp.nextPageToken with
          | none =>
            rw [pageLoop_eq_lastPage hitems hv htok]
            have hpages : pagesFrom gw uploadsId (fuel + 1) resp = [resp] := by
              simp only [pagesFrom, htok]
            rw [hpages]
            constructor
            · simp [videosCallsOf, hitems]
            · show addRowsOf (emitRows dh total p vitems) = _
              rw [addRowsOf_emitRows_eq]
              simp [rowsOfPage, hitems, hv]
          | some tok =>
            cases hpl : playlistRes gw uploadsId (some tok) with
            | error e => rw [pageLoop_eq_nextFail hitems hv htok hpl] at hok; simp at hok
            | ok resp2 =>
              rw [pageLoop_eq_next hitems hv htok hpl] at hok ⊢
              obtain ⟨hcalls, hrows⟩ := ih resp2 (p + vitems.length) n hok
              have hpages : pagesFrom gw uploadsId (fuel + 1) resp =
                  resp :: pagesFrom gw uploadsId fuel resp2 := by
                simp only [pagesFrom, htok, hpl]
              rw [hpages]
              constructor
              · show ids :: videosCallsOf (pageLoop gw uploadsId dh ch total fuel resp2
                  (p + vitems.length)).2.1 = _
                rw [hcalls]
                simp [hitems]
              · show addRowsOf (emitRows dh total p vitems ++
                  (pageLoop gw uploadsId dh ch total fuel resp2 (p + vitems.length)).1) = _
                rw [addRowsOf_append, addRowsOf_emitRows_eq, hrows]
                simp [rowsOfPage, hitems, hv]

/-- C8 part 2 engine: whatever items the videos responses contain — in
particular when requested ids are missing from them — the loop finishes
normally, provided the pages themselves are well-formed and the fetches
succeed. -/
theorem pageLoop_no_abort (gw : Gateway) (uploadsId dh ch : String) (total : Nat)
    (hvid : ∀ ids, ∃ l, videosRes gw ids = .ok (some l)) :
    ∀ (fuel : Nat) (resp : PageResponse) (p : Nat),
      goodPages gw uploadsId fuel resp = true →
      ∃ n, (pageLoop gw uploadsId dh ch total fuel resp p).2.2 = some (.ok n) := by
  intro fuel
  induction fuel with
  | zero => intro resp p hg; simp [goodPages] at hg
  | succ fuel ih =>
    intro resp p hg
    simp only [goodPages, Bool.and_eq_true] at hg
    obtain ⟨hsome, hrest⟩ := hg
    cases hitems : resp.items with
    | none => rw [hitems] at hsome; simp at hsome
    | some ids =>
      obtain ⟨l, hv⟩ := hvid ids
      cases htok : resp.nextPageToken with
      | none =>
        rw [pageLoop_eq_lastPage hitems hv htok]
        exact ⟨p + l.length, rfl⟩
      | some tok =>
        simp only [htok] at hrest
        cases hpl : playlistRes gw uploadsId (some tok) with
        | error e => simp [hpl] at hrest
        | ok resp2 =>
          simp only [hpl] at hrest
          obtain ⟨n, hn⟩ := ih resp2 (p + l.length) hrest
          rw [pageLoop_eq_next hitems hv htok hpl]
          exact ⟨n, hn⟩

/-- C8: on each page exactly one metadata-fetch call is issued, covering
all of the page's video ids in one round trip; the emitted rows follow
the order of the metadata response's items; and ids missing from a
response merely drop their rows — the batch and the channel still finish
normally. -/
theorem C8_metadata_batches :
    (∀ (gw : Gateway) (uploadsId dh ch : String) (total fuel : Nat)
        (resp : PageResponse) (p n : Nat),
        (pageLoop gw uploadsId dh ch total fuel resp p).2.2 = some (.ok n) →
        videosCallsOf (pageLoop gw uploadsId dh ch total fuel resp p).2.1 =
          (pagesFrom gw uploadsId fuel resp).map (fun pg => pg.items.getD []) ∧
        addRowsOf (pageLoop gw uploadsId dh ch total fuel resp p).1 =
          ((pagesFrom gw uploadsId fuel resp).map (rowsOfPage gw dh)).flatten) ∧
    (∀ (gw : Gateway) (uploadsId dh ch : String) (total fuel : Nat)
        (resp : PageResponse) (p : Nat),
        (∀ ids, ∃ l, videosRes gw ids = .ok (some l)) →
        goodPages gw uploadsId fuel resp = true →
        ∃ n, (pageLoop gw uploadsId dh ch total fuel resp p).2.2 = some (.ok n)) :=
  ⟨fun gw uploadsId dh ch total fuel resp p n hok =>
      pageLoop_batches gw uploadsId dh ch total fuel resp p n hok,
    fun gw uploadsId dh ch total fuel resp p hvid hg =>
      pageLoop_no_abort gw uploadsId dh ch total hvid fuel resp p hg⟩

/-- A gateway whose single page lists ids `v1` and `v2` but whose
metadata response only contains `v1` (an id is missing). -/
def gwC8 : Gateway where
  resolveHandle := fun _ => .ok (some "cid")
  channelsApi := fun _ => .ok (some "up")
  playlistItemsApi := fun _ _ => .ok ⟨2, some ["v1", "v2"], none⟩
  videosApi := fun _ => .ok (some [⟨"v1", "T1"⟩])

/-- Witness for C8: one metadata call covering both ids, one row (for the
present id) in response order, and normal completion despite the missing
id. -/
theorem C8_witness :
    (videosCallsOf (pageLoop gwC8 "up" "A" "@A" 2 5 ⟨2, some ["v1", "v2"], none⟩ 0).2.1 =
      (pagesFrom gwC8 "up" 5 ⟨2, some ["v1", "v2"], none⟩).map (fun pg => pg.items.getD []) ∧
     addRowsOf (pageLoop gwC8 "up" "A" "@A" 2 5 ⟨2, some ["v1", "v2"], none⟩ 0).1 =
      ((pagesFrom gwC8 "up" 5 ⟨2, some ["v1", "v2"], none⟩).map (rowsOfPage gwC8 "A")).flatten) ∧
    (∃ n, (pageLoop gwC8 "up" "A" "@A" 2 5 ⟨2, some ["v1", "v2"], none⟩ 0).2.2 =
      some (.ok n)) :=
  ⟨C8_metadata_batches.1 gwC8 "up" "A" "@A" 2 5 ⟨2, some ["v1", "v2"], none⟩ 0 1 (by rfl),
    C8_metadata_batches.2 gwC8 "up" "A" "@A" 2 5 ⟨2, some ["v1", "v2"], none⟩ 0
      (fun ids => ⟨[⟨"v1", "T1"⟩], rfl⟩) (by rfl)⟩

/-- All events except progress updates (the progress percentages are the
only events that depend on the accumulated `total_videos`). -/
def nonProgress (evs : List Event) : List Event :=
  evs.filter (fun e => match e with | .progressUpdate _ => false | _ => true)

theorem nonProgress_append (l₁ l₂ : List Event) :
    nonProgress (l₁ ++ l₂) = nonProgress l₁ ++ nonProgress l₂ :=
  List.filter_append ..

theorem nonProgress_cons_status (s : String) (l : List Event) :
    nonProgress (Event.statusUpdate s :: l) = Event.statusUpdate s :: nonProgress l := rfl

theorem nonProgress_cons_tab (h : String) (l : List Event) :
    nonProgress (Event.newTab h :: l) = Event.newTab h :: nonProgress l := rfl

theorem nonProgress_emitRows (dh : String) (total : Nat) :
    ∀ (vitems : List VideoItem) (p : Nat),
      nonProgress (emitRows dh total p vitems) = vitems.map (rowOf dh) := by
  intro vitems
  induction vitems with
  | nil => intro p; rfl
  | cons v rest ih =>
    intro p
    by_cases ht : 0 < total <;>
      simp only [emitRows, nonProgress, List.filter_cons, ht, if_pos, if_neg,
        List.filter_append, List.map_cons] <;>
      simpa [nonProgress, rowOf, videoUrl] using ih (p + 1)

/-- Filtering rows or errors factors through dropping progress events. -/
theorem addRowsOf_nonProgress (l : List Event) :
    addRowsOf (nonProgress l) = addRowsOf l := by
  induction l with
  | nil => rfl
  | cons e rest ih =>
    cases e <;> simp only [nonProgress, addRowsOf, List.filter_cons] <;> simp [addRowsOf,
      nonProgress] at ih ⊢ <;> exact ih

theorem errorsOf_nonProgress (l : List Event) :
    errorsOf (nonProgress l) = errorsOf l := by
  induction l with
  | nil => rfl
  | cons e rest ih =>
    cases e <;> simp only [nonProgress, errorsOf, List.filter_cons] <;> simp [errorsOf,
      nonProgress] at ih ⊢ <;> exact ih

/-- The accumulated `total_videos` only influences the progress events:
the non-progress events, the call trace and the outcome of the
pagination loop are identical for any two totals. -/
theorem pageLoop_total_invar (gw : Gateway) (uploadsId dh ch : String) :
    ∀ (fuel : Nat) (resp : PageResponse) (p t₁ t₂ : Nat),
      nonProgress (pageLoop gw uploadsId dh ch t₁ fuel resp p).1 =
        nonProgress (pageLoop gw uploadsId dh ch t₂ fuel resp p).1 ∧
      (pageLoop gw uploadsId dh ch t₁ fuel resp p).2.1 =
        (pageLoop gw uploadsId dh ch t₂ fuel resp p).2.1 ∧
      (pageLoop gw uploadsId dh ch t₁ fuel resp p).2.2 =
        (pageLoop gw uploadsId dh ch t₂ fuel resp p).2.2 := by
  intro fuel
  induction fuel with
  | zero => intro resp p t₁ t₂; exact ⟨rfl, rfl, rfl⟩
  | succ fuel ih =>
    intro resp p t₁ t₂
    cases hitems : resp.items with
    | none => rw [pageLoop_eq_noItems hitems, pageLoop_eq_noItems hitems]; exact ⟨rfl, rfl, rfl⟩
    | some ids =>
      cases hv : videosRes gw ids with
      | error e =>
        rw [pageLoop_eq_videosFail hitems hv, pageLoop_eq_videosFail hitems hv]
        exact ⟨rfl, rfl, rfl⟩
      | ok vopt =>
        cases vopt with
        | none =>
          rw [pageLoop_eq_videosNone hitems hv, pageLoop_eq_videosNone hitems hv]
          exact ⟨rfl, rfl, rfl⟩
        | some vitems =>
          cases htok : resp.nextPageToken with
          | none =>
            rw [pageLoop_eq_lastPage hitems hv htok, pageLoop_eq_lastPage hitems hv htok]
            refine ⟨?_, rfl, rfl⟩
            show nonProgress (Event.statusUpdate _ :: emitRows dh t₁ p vitems) = _
            rw [nonProgress_cons_status, nonProgress_cons_status,
              nonProgress_emitRows, nonProgress_emitRows]
          | some tok =>
            cases hpl : playlistRes gw uploadsId (some tok) with
            | error e =>
              rw [pageLoop_eq_nextFail hitems hv htok hpl,
                pageLoop_eq_nextFail hitems hv htok hpl]
              refine ⟨?_, rfl, rfl⟩
              show nonProgress (Event.statusUpdate _ :: emitRows dh t₁ p vitems) = _
              rw [nonProgress_cons_status, nonProgress_cons_status,
                nonProgress_emitRows, nonProgress_emitRows]
            | ok resp2 =>
              rw [pageLoop_eq_next hitems hv htok hpl, pageLoop_eq_next hitems hv htok hpl]
              obtain ⟨ihe, ihc, iho⟩ := ih resp2 (p + vitems.length) t₁ t₂
              refine ⟨?_, ?_, iho⟩
              · show nonProgress (Event.statusUpdate ("Processing page for " ++ ch ++ "...") ::
                    (emitRows dh t₁ p vitems ++
                      (pageLoop gw uploadsId dh ch t₁ fuel resp2 (p + vitems.length)).1)) =
                  nonProgress (Event.statusUpdate ("Processing page for " ++ ch ++ "...") ::
                    (emitRows dh t₂ p vitems ++
                      (pageLoop gw uploadsId dh ch t₂ fuel resp2 (p + vitems.length)).1))
                rw [nonProgress_cons_status, nonProgress_cons_status,
                  nonProgress_append, nonProgress_append,
                  nonProgress_emitRows, nonProgress_emitRows, ihe]
              · show ApiCall.videosList ids :: ApiCall.playlistItems uploadsId 50 (some tok) ::
                    (pageLoop gw uploadsId dh ch t₁ fuel resp2 (p + vitems.length)).2.1 =
                  ApiCall.videosList ids :: ApiCall.playlistItems uploadsId 50 (some tok) ::
                    (pageLoop gw uploadsId dh ch t₂ fuel resp2 (p + vitems.length)).2.1
                rw [ihc]

/-- The per-channel body's non-progress events, calls and outcome do not
depend on the accumulated total either. -/
theorem processChannel_total_invar (gw : Gateway) (fuel : Nat) (ch : String)
    (t₁ t₂ : Nat) :
    nonProgress (processChannel gw fuel t₁ ch).1 =
      nonProgress (processChannel gw fuel t₂ ch).1 ∧
    (processChannel gw fuel t₁ ch).2.1 = (processChannel gw fuel t₂ ch).2.1 ∧
    (processChannel gw fuel t₁ ch).2.2.2 = (processChannel gw fuel t₂ ch).2.2.2 := by
  cases hg : get_channel_id gw ch with
  | error err =>
    rw [processChannel_eq_resolveFail fuel t₁ hg, processChannel_eq_resolveFail fuel t₂ hg]
    exact ⟨rfl, rfl, rfl⟩
  | ok cid =>
    cases hc : channelsRes gw cid with
    | error err =>
      rw [processChannel_eq_detailsFail fuel t₁ hg hc,
        processChannel_eq_detailsFail fuel t₂ hg hc]
      exact ⟨rfl, rfl, rfl⟩
    | ok copt =>
      cases copt with
      | none =>
        rw [processChannel_eq_detailsNone fuel t₁ hg hc,
          processChannel_eq_detailsNone fuel t₂ hg hc]
        exact ⟨rfl, rfl, rfl⟩
      | some uploadsId =>
        cases hp : playlistRes gw uploadsId none with
        | error err =>
          rw [processChannel_eq_firstPageFail fuel t₁ hg hc hp,
            processChannel_eq_firstPageFail fuel t₂ hg hc hp]
          exact ⟨rfl, rfl, rfl⟩
        | ok resp =>
          cases hitems : resp.items with
          | none =>
            rw [processChannel_eq_missingItems fuel t₁ hg hc hp hitems,
              processChannel_eq_missingItems fuel t₂ hg hc hp hitems]
            exact ⟨rfl, rfl, rfl⟩
          | some ids0 =>
            rw [processChannel_eq_paginate fuel t₁ hg hc hp hitems,
              processChannel_eq_paginate fuel t₂ hg hc hp hitems]
            obtain ⟨ihe, ihc, iho⟩ := pageLoop_total_invar gw uploadsId (displayHandle ch)
              ch fuel resp 0 (t₁ + resp.totalResults) (t₂ + resp.totalResults)
            refine ⟨?_, ?_, ?_⟩
            · show nonProgress (Event.newTab _ :: _) = _
              rw [nonProgress_cons_tab, nonProgress_cons_tab, ihe]
            · show _ :: _ :: _ :: (pageLoop gw uploadsId (displayHandle ch) ch
                (t₁ + resp.totalResults) fuel resp 0).2.1 = _
              rw [ihc]
            · show (match (pageLoop gw uploadsId (displayHandle ch) ch
                (t₁ + resp.totalResults) fuel resp 0).2.2 with
                | none => none
                | some (.ok _) => some (.ok ())
                | some (.error e) => some (.error e) : Option (Except PyErr Unit)) = _
              rw [iho]

theorem addRowsOf_cons_status (s : String) (l : List Event) :
    addRowsOf (Event.statusUpdate s :: l) = addRowsOf l := rfl

theorem addRowsOf_cons_errEvent (e : PyErr) (ch : String) (l : List Event) :
    addRowsOf (errEvent e ch :: l) = addRowsOf l := by
  cases e <;> rfl

theorem errorsOf_cons_status (s : String) (l : List Event) :
    errorsOf (Event.statusUpdate s :: l) = errorsOf l := rfl

theorem errorsOf_cons_errEvent (e : PyErr) (ch : String) (l : List Event) :
    errorsOf (errEvent e ch :: l) = errEvent e ch :: errorsOf l := by
  cases e <;> rfl

theorem errorsOf_eq_nil {evs : List Event}
    (h : ∀ e ∈ evs, ∀ m, e ≠ Event.errorOccurred m) : errorsOf evs = [] := by
  induction evs with
  | nil => rfl
  | cons e rest ih =>
    have hrest := ih (fun e' he' m => h e' (List.mem_cons_of_mem e he') m)
    cases e with
    | errorOccurred m => exact absurd rfl (h _ (List.mem_cons_self _ _) m)
    | statusUpdate s => exact hrest
    | addRow a b c => exact hrest
    | progressUpdate n => exact hrest
    | enableSaveButton b => exact hrest
    | newTab s => exact hrest

/-- The per-channel body itself never emits `error_occurred` (the error
popup is raised by the channel loop's exception handlers). -/
theorem processChannel_no_error (gw : Gateway) (fuel total : Nat) (ch : String) :
    errorsOf (processChannel gw fuel total ch).1 = [] := by
  refine errorsOf_eq_nil (fun e he m => ?_)
  rcases processChannel_mem gw fuel total ch e he with
    h | ⟨s, h⟩ | ⟨n, h⟩ | ⟨ids, items, v, _, _, h⟩ <;> subst h <;> simp

/-- The channel loop's non-progress events, call trace and completion
flag only depend on the seen-set through the membership of the handles
remaining to process (and not on the accumulated total at all). -/
theorem channelLoop_invar (gw : Gateway) (fuel : Nat) :
    ∀ (hs seen₁ seen₂ : List String) (t₁ t₂ : Nat),
      (∀ x ∈ hs, (pyStrip x ∈ seen₁ ↔ pyStrip x ∈ seen₂)) →
      nonProgress (channelLoop gw fuel hs seen₁ t₁).1 =
        nonProgress (channelLoop gw fuel hs seen₂ t₂).1 ∧
      (channelLoop gw fuel hs seen₁ t₁).2.1 = (channelLoop gw fuel hs seen₂ t₂).2.1 ∧
      (channelLoop gw fuel hs seen₁ t₁).2.2 = (channelLoop gw fuel hs seen₂ t₂).2.2 := by
  intro hs
  induction hs with
  | nil => intro seen₁ seen₂ t₁ t₂ _; exact ⟨rfl, rfl, rfl⟩
  | cons h rest ih =>
    intro seen₁ seen₂ t₁ t₂ hseen
    have hmem : pyStrip h ∈ seen₁ ↔ pyStrip h ∈ seen₂ :=
      hseen h (List.mem_cons_self _ _)
    have hseen2 : ∀ x ∈ rest, (pyStrip x ∈ seen₁ ↔ pyStrip x ∈ seen₂) :=
      fun x hx => hseen x (List.mem_cons_of_mem _ hx)
    by_cases hskip : pyStrip h = "" ∨ pyStrip h ∈ seen₁
    · have hskip2 : pyStrip h = "" ∨ pyStrip h ∈ seen₂ := by
        rcases hskip with hsk | hsk
        · exact Or.inl hsk
        · exact Or.inr (hmem.1 hsk)
      rw [channelLoop_eq_skip hskip, channelLoop_eq_skip hskip2]
      exact ih seen₁ seen₂ t₁ t₂ hseen2
    · have hskip2 : ¬(pyStrip h = "" ∨ pyStrip h ∈ seen₂) := by
        intro hsk
        rcases hsk with hsk | hsk
        · exact hskip (Or.inl hsk)
        · exact hskip (Or.inr (hmem.2 hsk))
      obtain ⟨hpce, hpcc, hpco⟩ := processChannel_total_invar gw fuel (pyStrip h) t₁ t₂
      have hseen3 : ∀ x ∈ rest,
          (pyStrip x ∈ pyStrip h :: seen₁ ↔ pyStrip x ∈ pyStrip h :: seen₂) := by
        intro x hx
        constructor
        · intro hm
          rcases List.mem_cons.1 hm with hm | hm
          · exact hm ▸ List.mem_cons_self _ _
          · exact List.mem_cons_of_mem _ ((hseen2 x hx).1 hm)
        · intro hm
          rcases List.mem_cons.1 hm with hm | hm
          · exact hm ▸ List.mem_cons_self _ _
          · exact List.mem_cons_of_mem _ ((hseen2 x hx).2 hm)
      cases hout : (processChannel gw fuel t₁ (pyStrip h)).2.2.2 with
      | none =>
        have hout2 : (processChannel gw fuel t₂ (pyStrip h)).2.2.2 = none :=
          hpco ▸ hout
        rw [channelLoop_eq_fuelOut hskip hout, channelLoop_eq_fuelOut hskip2 hout2]
        refine ⟨?_, hpcc, rfl⟩
        rw [nonProgress_cons_status, nonProgress_cons_status, hpce]
      | some out =>
        obtain ⟨ihe, ihc, iho⟩ := ih (pyStrip h :: seen₁) (pyStrip h :: seen₂)
          (processChannel gw fuel t₁ (pyStrip h)).2.2.1
          (processChannel gw fuel t₂ (pyStrip h)).2.2.1 hseen3
        cases out with
        | ok u =>
          cases u
          have hout2 : (processChannel gw fuel t₂ (pyStrip h)).2.2.2 = some (.ok ()) :=
            hpco ▸ hout
          rw [channelLoop_eq_ok hskip hout, channelLoop_eq_ok hskip2 hout2]
          refine ⟨?_, ?_, iho⟩
          · show nonProgress ((Event.statusUpdate ("Processing " ++ pyStrip h ++ "...") ::
                (processChannel gw fuel t₁ (pyStrip h)).1) ++ _) = _
            rw [nonProgress_append, nonProgress_append, nonProgress_cons_status,
              nonProgress_cons_status, hpce, ihe]
          · rw [hpcc, ihc]
        | error err =>
          have hout2 : (processChannel gw fuel t₂ (pyStrip h)).2.2.2 =
              some (.error err) := hpco ▸ hout
          rw [channelLoop_eq_error hskip hout, channelLoop_eq_error hskip2 hout2]
          refine ⟨?_, ?_, iho⟩
          · show nonProgress ((Event.statusUpdate ("Processing " ++ pyStrip h ++ "...") ::
                (processChannel gw fuel t₁ (pyStrip h)).1) ++
                errEvent err (pyStrip h) :: _) = _
            rw [nonProgress_append, nonProgress_append, nonProgress_cons_status,
              nonProgress_cons_status, hpce,
              show ∀ l, nonProgress (errEvent err (pyStrip h) :: l) =
                errEvent err (pyStrip h) :: nonProgress l from by
                  intro l; cases err <;> rfl,
              show ∀ l, nonProgress (errEvent err (pyStrip h) :: l) =
                errEvent err (pyStrip h) :: nonProgress l from by
                  intro l; cases err <;> rfl,
              ihe]
          · rw [hpcc, ihc]

theorem addRowsOf_ite_complete (c : Prop) [Decidable c] :
    addRowsOf (if c then [Event.statusUpdate "Complete", Event.enableSaveButton true]
      else []) = [] := by
  split <;> rfl

theorem errorsOf_ite_complete (c : Prop) [Decidable c] :
    errorsOf (if c then [Event.statusUpdate "Complete", Event.enableSaveButton true]
      else []) = [] := by
  split <;> rfl

/-- C5 (amended): when the first handle's processing fails before any of
its rows (resolution failure, permanent first-page error, or any other
failure preceding the first row), the run behaves exactly like the run
without that handle, except for one extra `error_occurred` report: the
row events coincide, the completion flag coincides, and a completed run
still reaches the Complete status with the save button enabled.  (A
channel failing mid-pagination keeps its already-emitted rows, see the
counterexample.) -/
theorem C5_failure_isolation (gw : Gateway) (apiKey A : String) (rest : List String)
    (fuel : Nat) (e : PyErr) (hk : apiKey ≠ "") (hrest : rest ≠ [])
    (hA : pyStrip A ≠ "")
    (hAfresh : ∀ x ∈ rest, pyStrip x ≠ pyStrip A)
    (hout : (processChannel gw fuel 0 (pyStrip A)).2.2.2 = some (.error e))
    (hnorows : addRowsOf (processChannel gw fuel 0 (pyStrip A)).1 = []) :
    addRowsOf (runScraper gw apiKey (A :: rest) fuel).1 =
      addRowsOf (runScraper gw apiKey rest fuel).1 ∧
    errorsOf (runScraper gw apiKey (A :: rest) fuel).1 =
      errEvent e (pyStrip A) :: errorsOf (runScraper gw apiKey rest fuel).1 ∧
    (runScraper gw apiKey (A :: rest) fuel).2.2 = (runScraper gw apiKey rest fuel).2.2 ∧
    ((runScraper gw apiKey (A :: rest) fuel).2.2 = true →
      Event.statusUpdate "Complete" ∈ (runScraper gw apiKey (A :: rest) fuel).1 ∧
      Event.enableSaveButton true ∈ (runScraper gw apiKey (A :: rest) fuel).1) := by
  have hcons : (A :: rest) ≠ [] := by simp
  have hskip : ¬(pyStrip A = "" ∨ pyStrip A ∈ ([] : List String)) := by
    simp [hA]
  obtain ⟨hie, hic, hio⟩ := channelLoop_invar gw fuel rest [pyStrip A] []
    (processChannel gw fuel 0 (pyStrip A)).2.2.1 0
    (fun x hx => by simp [hAfresh x hx])
  have hrows : addRowsOf (channelLoop gw fuel rest [pyStrip A]
      (processChannel gw fuel 0 (pyStrip A)).2.2.1).1 =
      addRowsOf (channelLoop gw fuel rest [] 0).1 := by
    calc addRowsOf (channelLoop gw fuel rest [pyStrip A]
          (processChannel gw fuel 0 (pyStrip A)).2.2.1).1
        = addRowsOf (nonProgress (channelLoop gw fuel rest [pyStrip A]
            (processChannel gw fuel 0 (pyStrip A)).2.2.1).1) :=
          (addRowsOf_nonProgress _).symm
      _ = addRowsOf (nonProgress (channelLoop gw fuel rest [] 0).1) := by rw [hie]
      _ = addRowsOf (channelLoop gw fuel rest [] 0).1 := addRowsOf_nonProgress _
  have herrs : errorsOf (channelLoop gw fuel rest [pyStrip A]
      (processChannel gw fuel 0 (pyStrip A)).2.2.1).1 =
      errorsOf (channelLoop gw fuel rest [] 0).1 := by
    calc errorsOf (channelLoop gw fuel rest [pyStrip A]
          (processChannel gw fuel 0 (pyStrip A)).2.2.1).1
        = errorsOf (nonProgress (channelLoop gw fuel rest [pyStrip A]
            (processChannel gw fuel 0 (pyStrip A)).2.2.1).1) :=
          (errorsOf_nonProgress _).symm
      _ = errorsOf (nonProgress (channelLoop gw fuel rest [] 0).1) := by rw [hie]
      _ = errorsOf (channelLoop gw fuel rest [] 0).1 := errorsOf_nonProgress _
  rw [runScraper_eq hk hcons, runScraper_eq hk hrest, channelLoop_eq_error hskip hout]
  refine ⟨?_, ?_, ?_, ?_⟩
  · show addRowsOf ((Event.statusUpdate "Starting..." ::
      ((Event.statusUpdate ("Processing " ++ pyStrip A ++ "...") ::
        (processChannel gw fuel 0 (pyStrip A)).1) ++
        errEvent e (pyStrip A) :: (channelLoop gw fuel rest [pyStrip A]
          (processChannel gw fuel 0 (pyStrip A)).2.2.1).1)) ++ _) = _
    rw [addRowsOf_append, addRowsOf_append, addRowsOf_cons_status, addRowsOf_cons_status,
      addRowsOf_append, addRowsOf_cons_status, hnorows, addRowsOf_cons_errEvent,
      addRowsOf_ite_complete, addRowsOf_ite_complete, hrows]
    simp
  · show errorsOf ((Event.statusUpdate "Starting..." ::
      ((Event.statusUpdate ("Processing " ++ pyStrip A ++ "...") ::
        (processChannel gw fuel 0 (pyStrip A)).1) ++
        errEvent e (pyStrip A) :: (channelLoop gw fuel rest [pyStrip A]
          (processChannel gw fuel 0 (pyStrip A)).2.2.1).1)) ++ _) = _
    rw [errorsOf_append, errorsOf_append, errorsOf_cons_status, errorsOf_cons_status,
      errorsOf_append, errorsOf_cons_status, processChannel_no_error,
      errorsOf_cons_errEvent, errorsOf_ite_complete, errorsOf_ite_complete, herrs]
    simp
  · exact hio
  · intro hdone
    constructor
    · rw [if_pos hdone]
      simp
    · rw [if_pos hdone]
      simp

/-- A gateway whose playlist has a first page with one video and a
continuation token, but whose second page fetch fails with a permanent
HTTP 404. -/
def gwC5 : Gateway where
  resolveHandle := fun _ => .ok (some "cid")
  channelsApi := fun _ => .ok (some "up")
  playlistItemsApi := fun _ tok =>
    match tok with
    | none => .ok ⟨2, some ["v1"], some "t2"⟩
    | some _ => .error (.httpError 404)
  videosApi := fun ids => .ok (some (ids.map (fun i => ⟨i, "T" ++ i⟩)))

/-- C5 fails as stated for mid-pagination failures: a channel that fails
with the permanent playlist error (`PlaylistNotFound`) on its second page
has already contributed one row, not zero. -/
theorem C5_counterexample :
    (addRowsOf (runScraper gwC5 "k" ["@A"] 5).1).length = 1 ∧
    Event.errorOccurred "No uploads playlist found for handle @A" ∈
      (runScraper gwC5 "k" ["@A"] 5).1 :=
  ⟨rfl, by decide⟩

/-- Witness for C5 (amended): `@C` fails resolution, `@B` still has all
its rows; the failure is reported and the run completes with the save
button enabled. -/
theorem C5_witness :
    addRowsOf (runScraper gwC3 "k" ["@C", "@B"] 5).1 =
      addRowsOf (runScraper gwC3 "k" ["@B"] 5).1 ∧
    errorsOf (runScraper gwC3 "k" ["@C", "@B"] 5).1 =
      errEvent (.valueError "No channel found for handle @C") "@C" ::
        errorsOf (runScraper gwC3 "k" ["@B"] 5).1 ∧
    Event.statusUpdate "Complete" ∈ (runScraper gwC3 "k" ["@C", "@B"] 5).1 ∧
    Event.enableSaveButton true ∈ (runScraper gwC3 "k" ["@C", "@B"] 5).1 := by
  obtain ⟨h1, h2, h3, h4⟩ := C5_failure_isolation gwC3 "k" "@C" ["@B"] 5
    (.valueError "No channel found for handle @C") (by decide) (by decide) (by decide)
    (by decide) (by rfl) (by rfl)
  exact ⟨h1, h2, (h4 (by rfl)).1, (h4 (by rfl)).2⟩

/-- Whether `channel_data` already has a list for this key. -/
def keyMem (acc : List (String × List (String × String))) (ch : String) : Bool :=
  acc.any (fun e => e.1 == ch)

/-- How many `channel_data` entries carry this key. -/
def countKey (acc : List (String × List (String × String))) (ch : String) : Nat :=
  acc.countP (fun e => e.1 == ch)

theorem addEntry_cons_eq (e : String × List (String × String))
    (restAcc : List (String × List (String × String))) (k : String)
    (row : String × String) (hk : e.1 = k) :
    addEntry (e :: restAcc) k row = (e.1, e.2 ++ [row]) :: restAcc := by
  show (if e.1 = k then (e.1, e.2 ++ [row]) :: restAcc
    else (e.1, e.2) :: addEntry restAcc k row) = _
  rw [if_pos hk]

theorem addEntry_cons_ne (e : String × List (String × String))
    (restAcc : List (String × List (String × String))) (k : String)
    (row : String × String) (hk : ¬ e.1 = k) :
    addEntry (e :: restAcc) k row = (e.1, e.2) :: addEntry restAcc k row := by
  show (if e.1 = k then (e.1, e.2 ++ [row]) :: restAcc
    else (e.1, e.2) :: addEntry restAcc k row) = _
  rw [if_neg hk]

theorem addEntry_countKey_ne (k ch : String) (row : String × String)
    (hne : ¬ k = ch) :
    ∀ acc, countKey (addEntry acc k row) ch = countKey acc ch := by
  intro acc
  induction acc with
  | nil =>
    show countKey [(k, [row])] ch = countKey [] ch
    simp [countKey, hne]
  | cons e restAcc ih =>
    by_cases hk : e.1 = k
    · rw [addEntry_cons_eq e restAcc k row hk]
      simp [countKey, List.countP_cons]
    · rw [addEntry_cons_ne e restAcc k row hk]
      simp only [countKey, List.countP_cons] at ih ⊢
      rw [ih]

theorem addEntry_keyMem (k ch : String) (row : String × String) :
    ∀ acc, keyMem (addEntry acc k row) ch = (keyMem acc ch || (k == ch)) := by
  intro acc
  induction acc with
  | nil =>
    show keyMem [(k, [row])] ch = (keyMem [] ch || (k == ch))
    simp [keyMem]
  | cons e restAcc ih =>
    by_cases hk : e.1 = k
    · rw [addEntry_cons_eq e restAcc k row hk]
      subst hk
      simp only [keyMem, List.any_cons] at ih ⊢
      cases hec : (e.1 == ch) <;> simp
    · rw [addEntry_cons_ne e restAcc k row hk]
      simp only [keyMem, List.any_cons] at ih ⊢
      rw [ih, Bool.or_assoc]

theorem addEntry_countKey_self (k : String) (row : String × String) :
    ∀ acc, countKey (addEntry acc k row) k =
      if keyMem acc k then countKey acc k else countKey acc k + 1 := by
  intro acc
  induction acc with
  | nil =>
    show countKey [(k, [row])] k = if keyMem [] k then countKey [] k else countKey [] k + 1
    simp [countKey, keyMem]
  | cons e restAcc ih =>
    by_cases hk : e.1 = k
    · rw [addEntry_cons_eq e restAcc k row hk]
      simp [countKey, keyMem, List.countP_cons, List.any_cons, hk]
    · rw [addEntry_cons_ne e restAcc k row hk]
      have hbeq : (e.1 == k) = false := by simpa using hk
      simp only [countKey, keyMem, List.countP_cons, List.any_cons, hbeq,
        Bool.false_or] at ih ⊢
      rw [ih]
      split <;> simp

theorem channelData_fold_keyMem (s : List String) (ch : String) :
    ∀ (u : List (String × String × String)) (acc : List (String × List (String × String))),
      keyMem (u.foldl (fun acc e =>
        if e.1 ∈ s then addEntry acc e.1 (e.2.1, e.2.2) else acc) acc) ch =
      (keyMem acc ch || (decide (ch ∈ s) && u.any (fun r => r.1 == ch))) := by
  intro u
  induction u with
  | nil => intro acc; simp
  | cons r rest ih =>
    intro acc
    simp only [List.foldl_cons]
    rw [ih]
    by_cases hr : r.1 ∈ s
    · rw [if_pos hr, addEntry_keyMem]
      by_cases hch : r.1 = ch
      · subst hch
        have hsel : decide (r.1 ∈ s) = true := by simpa using hr
        simp [hsel, List.any_cons]
      · have hbeq : (r.1 == ch) = false := by simpa using hch
        simp [hbeq, List.any_cons]
    · rw [if_neg hr]
      by_cases hch : r.1 = ch
      · subst hch
        have hsel : decide (r.1 ∈ s) = false := by simpa using hr
        simp [hsel, List.any_cons]
      · have hbeq : (r.1 == ch) = false := by simpa using hch
        simp [hbeq, List.any_cons]

theorem channelData_fold_inv (s : List String) (ch : String) :
    ∀ (u : List (String × String × String)) (acc : List (String × List (String × String))),
      countKey acc ch = (if keyMem acc ch then 1 else 0) →
      countKey (u.foldl (fun acc e =>
        if e.1 ∈ s then addEntry acc e.1 (e.2.1, e.2.2) else acc) acc) ch =
      (if keyMem (u.foldl (fun acc e =>
        if e.1 ∈ s then addEntry acc e.1 (e.2.1, e.2.2) else acc) acc) ch
       then 1 else 0) := by
  intro u
  induction u with
  | nil => intro acc h; exact h
  | cons r rest ih =>
    intro acc h
    simp only [List.foldl_cons]
    apply ih
    by_cases hr : r.1 ∈ s
    · rw [if_pos hr]
      by_cases hch : r.1 = ch
      · subst hch
        rw [addEntry_countKey_self, addEntry_keyMem]
        cases hkm : keyMem acc r.1 with
        | true => simp [hkm] at h; simp [h]
        | false => simp [hkm] at h; simp [h]
      · rw [addEntry_countKey_ne _ _ _ hch, addEntry_keyMem]
        have hbeq : (r.1 == ch) = false := by simpa using hch
        simp [hbeq, h]
    · rw [if_neg hr]
      exact h

theorem keepChar_not_ws (c : Char) (h : keepChar c = true) : c.isWhitespace = false := by
  simp only [Char.isWhitespace, Bool.or_eq_false_iff, decide_eq_false_iff_not]
  refine ⟨⟨⟨?_, ?_⟩, ?_⟩, ?_⟩ <;> intro he <;> subst he <;> exact absurd h (by decide)

theorem dropWhile_ws_of_none {l : List Char}
    (h : ∀ c ∈ l, c.isWhitespace = false) : l.dropWhile Char.isWhitespace = l := by
  cases l with
  | nil => rfl
  | cons c rest =>
    rw [List.dropWhile_cons, h c (List.mem_cons_self _ _)]
    simp

/-- The trailing `rstrip()` of `save_to_file` is a no-op: the kept
characters are never whitespace, so the stem is exactly the filtered
handle. -/
theorem sanitize_eq_filter (ch : String) :
    sanitize ch = String.mk (ch.data.filter keepChar) := by
  unfold sanitize
  congr 1
  have hall : ∀ c ∈ (ch.toList.filter keepChar).reverse, c.isWhitespace = false := by
    intro c hc
    rw [List.mem_reverse] at hc
    exact keepChar_not_ws c (List.of_mem_filter hc)
  rw [dropWhile_ws_of_none hall, List.reverse_reverse]
  rfl

/-- C9: for a selected channel, the export produces exactly one
`channel_data` entry — hence one file named `<stem>_output.<ext>` — iff
the channel has at least one accumulated row (zero rows produce no
file), and the stem is the handle with every character that is not
alphanumeric, `-` or `_` dropped. -/
theorem C9_export_files (u : List (String × String × String)) (s : List String)
    (ext ch : String) :
    countKey (channelData u s) ch =
      (if ch ∈ s ∧ (∃ r ∈ u, r.1 = ch) then 1 else 0) ∧
    ((ch ∈ s ∧ ∃ r ∈ u, r.1 = ch) →
      (sanitize ch ++ "_output." ++ ext) ∈ (savedFiles u s ext).map Prod.fst) ∧
    sanitize ch = String.mk (ch.data.filter keepChar) := by
  have hinv := channelData_fold_inv s ch u [] (by rfl)
  have hkm := channelData_fold_keyMem s ch u []
  have hcount : countKey (channelData u s) ch =
      (if ch ∈ s ∧ (∃ r ∈ u, r.1 = ch) then 1 else 0) := by
    show countKey (u.foldl (fun acc e =>
      if e.1 ∈ s then addEntry acc e.1 (e.2.1, e.2.2) else acc) []) ch = _
    rw [hinv, hkm]
    have hiff : ((keyMem [] ch || (decide (ch ∈ s) && u.any (fun r => r.1 == ch))) = true)
        ↔ (ch ∈ s ∧ ∃ r ∈ u, r.1 = ch) := by
      simp [keyMem, List.any_eq_true]
    rw [if_congr hiff rfl rfl]
  refine ⟨hcount, fun hcond => ?_, sanitize_eq_filter ch⟩
  have hpos : 0 < countKey (channelData u s) ch := by
    rw [hcount, if_pos hcond]
    exact Nat.one_pos
  obtain ⟨entry, hmem, hp⟩ := List.countP_pos_iff.1 hpos
  have heq : entry.1 = ch := by simpa using hp
  have : Prod.fst ((fun e : String × List (String × String) =>
      (sanitize e.1 ++ "_output." ++ ext, e.2)) entry) =
      sanitize ch ++ "_output." ++ ext := by
    show sanitize entry.1 ++ "_output." ++ ext = _
    rw [heq]
  exact this ▸ List.mem_map_of_mem Prod.fst (List.mem_map_of_mem _ hmem)

/-- Witness for C9: with rows for channels `A` and `B!c` and only `B!c`
selected, exactly the file `Bc_output.csv` is produced (`!` is dropped
from the stem), and unselected or row-less channels produce none. -/
theorem C9_witness :
    countKey (channelData [("A", "t1", "u1"), ("B!c", "t2", "u2")] ["B!c"]) "B!c" = 1 ∧
    ("Bc_output.csv" : String) ∈
      (savedFiles [("A", "t1", "u1"), ("B!c", "t2", "u2")] ["B!c"] "csv").map Prod.fst := by
  obtain ⟨h1, h2, h3⟩ := C9_export_files [("A", "t1", "u1"), ("B!c", "t2", "u2")]
    ["B!c"] "csv" "B!c"
  constructor
  · rw [h1]
    decide
  · have := h2 (by decide)
    rw [show sanitize "B!c" ++ "_output." ++ "csv" = "Bc_output.csv" from rfl] at this
    exact this
